import Mathlib

/-!
Verification of the ROS1 bag (v2.0) writer (`src/writer.js`) against its
natural-language specification.

The JavaScript writer is shallowly embedded here.  Output bytes are modelled
as `List Nat` (one entry per byte, values `0..255`); the writer state
(`Writer`) mirrors the fields of the JS `Writer` class in in-memory mode
(`dest` not a string), where the sink is the `_buffers` array and `filePos`
the absolute position counter.  File mode is modelled separately
(`FileWriter`) over an explicit file-system map for the overwrite-protection
claims.  Strings appearing in the bag are ASCII; `Buffer.from(s)` (UTF-8) is
modelled as the list of code points, which agrees with UTF-8 on ASCII.
-/

namespace Rosbags

/-- A byte string: one list entry per byte (each `0..255`). -/
abbrev Bytes := List Nat

/-- `serializeUInt8` from `writer.js`: one byte (Buffer.writeUInt8). -/
def serializeUInt8 (val : Nat) : Bytes := [val % 256]

/-- `serializeUInt32` from `writer.js`: 4 bytes little-endian (`val >>> 0`
forces uint32, modelled as `% 2 ^ 32`). -/
def serializeUInt32 (val : Nat) : Bytes :=
  let v := val % 2 ^ 32
  [v % 256, v / 2 ^ 8 % 256, v / 2 ^ 16 % 256, v / 2 ^ 24 % 256]

/-- `serializeUInt64` from `writer.js`: 8 bytes little-endian
(Buffer.writeBigUInt64LE). -/
def serializeUInt64 (val : Nat) : Bytes :=
  let v := val % 2 ^ 64
  [v % 256, v / 2 ^ 8 % 256, v / 2 ^ 16 % 256, v / 2 ^ 24 % 256,
   v / 2 ^ 32 % 256, v / 2 ^ 40 % 256, v / 2 ^ 48 % 256, v / 2 ^ 56 % 256]

/-- `serializeTime` from `writer.js`: `sec = floor(ns / 1e9)` and
`nsec = ns % 1e9`, each written as a little-endian u32. -/
def serializeTime (ns : Nat) : Bytes :=
  serializeUInt32 (ns / 1000000000) ++ serializeUInt32 (ns % 1000000000)

/-- Bytes of a string (`Buffer.from`); code points, which equals UTF-8 for
the ASCII strings the writer emits. -/
def strBytes (s : String) : Bytes := s.data.map Char.toNat

-- -------------------------------------------------------------------------
-- Header object (key/value map serialized to a record)
-- -------------------------------------------------------------------------

/-- The `Header` class: an insertion-ordered key to value map
(`this.fields = new Map()`). -/
structure Header where
  fields : List (String × Bytes)
deriving DecidableEq

def Header.empty : Header := ⟨[]⟩

/-- JS `Map.set`: replace in place when the key is present, else append. -/
def Header.set (h : Header) (name : String) (value : Bytes) : Header :=
  if h.fields.any (fun p => decide (p.1 = name)) then
    ⟨h.fields.map (fun p => if p.1 = name then (name, value) else p)⟩
  else ⟨h.fields ++ [(name, value)]⟩

def Header.setUint32 (h : Header) (name : String) (value : Nat) : Header :=
  h.set name (serializeUInt32 value)

def Header.setUint64 (h : Header) (name : String) (value : Nat) : Header :=
  h.set name (serializeUInt64 value)

def Header.setString (h : Header) (name : String) (value : String) : Header :=
  h.set name (strBytes value)

def Header.setTime (h : Header) (name : String) (value : Nat) : Header :=
  h.set name (serializeTime value)

/-- `Buffer.concat([Buffer.from(key + '='), value])` in `Header.serialize`. -/
def keqvBytes (key : String) (value : Bytes) : Bytes :=
  strBytes (key ++ "=") ++ value

/-- `Header.serialize(opcode)` from `writer.js`: optional leading `op` field,
then every field in insertion order as `u32 length ++ key ++ "=" ++ value`,
the whole prefixed by the accumulated `dataLength`. -/
def Header.serialize (h : Header) (opcode : Option Nat) : Bytes :=
  let init : List Bytes × Nat :=
    match opcode with
    | some op =>
      let keqv := strBytes "op=" ++ serializeUInt8 op
      ([serializeUInt32 keqv.length, keqv], 4 + keqv.length)
    | none => ([], 0)
  let acc := h.fields.foldl
    (fun (acc : List Bytes × Nat) p =>
      (acc.1 ++ [serializeUInt32 (keqvBytes p.1 p.2).length, keqvBytes p.1 p.2],
       acc.2 + (4 + (keqvBytes p.1 p.2).length)))
    init
  serializeUInt32 acc.2 ++ acc.1.flatten

-- -------------------------------------------------------------------------
-- RecordType opcodes
-- -------------------------------------------------------------------------

def RecordType.MSGDATA : Nat := 2
def RecordType.BAGHEADER : Nat := 3
def RecordType.IDXDATA : Nat := 4
def RecordType.CHUNK : Nat := 5
def RecordType.CHUNK_INFO : Nat := 6
def RecordType.CONNECTION : Nat := 7

-- -------------------------------------------------------------------------
-- Connections
-- -------------------------------------------------------------------------

/-- `ConnectionExtRosbag1`: optional `callerid` and `latching`
(`?? null` maps absent arguments to `null`, modelled by `Option`). -/
structure ConnectionExtRosbag1 where
  callerid : Option String
  latching : Option Int
deriving DecidableEq

/-- The `Connection` class. -/
structure Connection where
  id : Nat
  topic : String
  msgtype : String
  msgdef : String
  md5sum : String
  ext : ConnectionExtRosbag1
deriving DecidableEq

-- -------------------------------------------------------------------------
-- WriteChunk
-- -------------------------------------------------------------------------

/-- `Number.MAX_SAFE_INTEGER`, the unset sentinel for `chunk.start`. -/
def maxSafeInteger : Nat := 2 ^ 53 - 1

/-- The `WriteChunk` class. `connections` is a JS `Map` from connection id to
the ordered list of `(timestamp, offset)` index entries, modelled as an
insertion-ordered association list. -/
structure WriteChunk where
  dataParts : List Bytes
  size : Nat
  pos : Int
  start : Nat
  «end» : Nat
  connections : List (Nat × List (Nat × Nat))
deriving DecidableEq

/-- `new WriteChunk()`. -/
def WriteChunk.init : WriteChunk :=
  { dataParts := [], size := 0, pos := -1, start := maxSafeInteger,
    «end» := 0, connections := [] }

/-- `WriteChunk.push`. -/
def WriteChunk.push (c : WriteChunk) (buf : Bytes) : WriteChunk :=
  { c with dataParts := c.dataParts ++ [buf], size := c.size + buf.length }

/-- `get offset()`. -/
def WriteChunk.offset (c : WriteChunk) : Nat := c.size

/-- `WriteChunk.toBuffer`: a single part is returned as is, otherwise
`Buffer.concat(parts, size)` (which truncates or zero-fills to `size`). -/
def WriteChunk.toBuffer (c : WriteChunk) : Bytes :=
  if c.dataParts.length = 1 then c.dataParts.headD []
  else c.dataParts.flatten.take c.size ++
    List.replicate (c.size - c.dataParts.flatten.length) 0

-- -------------------------------------------------------------------------
-- Writer state (in-memory mode)
-- -------------------------------------------------------------------------

/-- The `Writer` class in in-memory mode (`dest` not a string, so
`_inMemory = true` and `fd` stays `null`).  `buffers` is `this._buffers`
(one entry per `_writeToBag` call) and `finalData` is `this._finalData`. -/
structure Writer where
  buffers : List Bytes
  filePos : Nat
  opened : Bool
  compressionFormat : String
  connections : List Connection
  chunkThreshold : Nat
  chunks : List WriteChunk
  finalData : Option Bytes
deriving DecidableEq

/-- `new Writer()` (in-memory mode). -/
def Writer.init : Writer :=
  { buffers := [], filePos := 0, opened := false, compressionFormat := "none",
    connections := [], chunkThreshold := 1 * (1 <<< 20),
    chunks := [WriteChunk.init], finalData := none }

/-- `_writeToBag` (in-memory branch): append the buffer and advance
`filePos`. -/
def Writer.writeToBag (w : Writer) (buf : Bytes) : Writer :=
  { w with buffers := w.buffers ++ [buf], filePos := w.filePos + buf.length }

/-- The magic line `#ROSBAG V2.0\n` (13 bytes). -/
def magicBytes : Bytes := strBytes "#ROSBAG V2.0\x0a"

/-- `this.chunks[this.chunks.length - 1]` (the list is never empty). -/
def Writer.activeChunk (w : Writer) : WriteChunk := w.chunks.getLastD WriteChunk.init

/-- Replace the active (last) chunk, as JS mutation of
`this.chunks[this.chunks.length - 1]` does. -/
def Writer.setActiveChunk (w : Writer) (c : WriteChunk) : Writer :=
  { w with chunks := w.chunks.dropLast ++ [c] }

/-- The BAGHEADER record built identically in `open()` and `close()`:
fields `index_pos:u64`, `conn_count:u32`, `chunk_count:u32`, opcode 3. -/
def bagheaderBuf (indexPos connCount chunkCount : Nat) : Bytes :=
  ((((Header.empty).setUint64 "index_pos" indexPos).setUint32
      "conn_count" connCount).setUint32 "chunk_count" chunkCount).serialize
    (some RecordType.BAGHEADER)

/-- The padding record written after a BAGHEADER of serialized length
`headerLength`: `padsize = 4096 - 4 - (headerBuf.length - 4)` followed by
that many ASCII spaces (0x20), as in both `open()` and `close()`. -/
def padRecord (headerLength : Nat) : Bytes :=
  let padsize := 4096 - 4 - (headerLength - 4)
  serializeUInt32 padsize ++ List.replicate padsize 0x20

/-- `Writer.open` (in-memory mode, where `fd` is always `null` so the guard
is just `_opened`): write magic, preliminary BAGHEADER, padding, and mark the
writer opened.  (`open` is a Lean keyword, hence `openBag`.) -/
def Writer.openBag (w : Writer) : Writer :=
  if w.opened then w
  else
    let w := w.writeToBag magicBytes
    let headerBuf := bagheaderBuf 0 0 0
    let w := w.writeToBag headerBuf
    let w := w.writeToBag (padRecord headerBuf.length)
    { w with opened := true }

-- -------------------------------------------------------------------------
-- Connection records
-- -------------------------------------------------------------------------

/-- First header of `_writeConnectionRecord`: `conn:u32`, `topic`, opcode
CONNECTION. -/
def connectionHeaderBuf1 (c : Connection) : Bytes :=
  (((Header.empty).setUint32 "conn" c.id).setString "topic" c.topic).serialize
    (some RecordType.CONNECTION)

/-- Second header of `_writeConnectionRecord` (no opcode): `topic`, `type`,
`md5sum`, `message_definition`, then `callerid` and `latching` (decimal
string) when present. -/
def connectionHeaderBuf2 (c : Connection) : Bytes :=
  let h := (((Header.empty).setString "topic" c.topic).setString
    "type" c.msgtype).setString "md5sum" c.md5sum
  let h := h.setString "message_definition" c.msgdef
  let h := match c.ext.callerid with
    | some cid => h.setString "callerid" cid
    | none => h
  let h := match c.ext.latching with
    | some l => h.setString "latching" (toString l)
    | none => h
  h.serialize none

-- -------------------------------------------------------------------------
-- Predefined schema table
-- -------------------------------------------------------------------------

/-- The 80-character `=` separator line used between sections of a ROS
message definition. -/
def msgdefSep : String := String.mk (List.replicate 80 (Char.ofNat 61))

/-- `PREDEFINED_BASE['sensor_msgs/msg/Image'].msgdef` (verbatim). -/
def imageMsgdef : String :=
  "# This message contains an uncompressed image\x0a" ++
  "# (0, 0) is at top-left corner of image\x0a" ++
  "#\x0a" ++
  "\x0a" ++
  "Header header        # Header timestamp should be acquisition time of image\x0a" ++
  "                     # Header frame_id should be optical frame of camera\x0a" ++
  "                     # origin of frame should be optical center of camera\x0a" ++
  "                     # +x should point to the right in the image\x0a" ++
  "                     # +y should point down in the image\x0a" ++
  "                     # +z should point into to plane of the image\x0a" ++
  "                     # If the frame_id here and the frame_id of the CameraInfo\x0a" ++
  "                     # message associated with the image conflict\x0a" ++
  "                     # the behavior is undefined\x0a" ++
  "\x0a" ++
  "uint32 height         # image height, that is, number of rows\x0a" ++
  "uint32 width          # image width, that is, number of columns\x0a" ++
  "\x0a" ++
  "# The legal values for encoding are in file src/image_encodings.cpp\x0a" ++
  "# If you want to standardize a new string format, join\x0a" ++
  "# ros-users@lists.sourceforge.net and send an email proposing a new encoding.\x0a" ++
  "\x0a" ++
  "string encoding       # Encoding of pixels -- channel meaning, ordering, size\x0a" ++
  "                      # taken from the list of strings in include/sensor_msgs/image_encodings.h\x0a" ++
  "\x0a" ++
  "uint8 is_bigendian    # is this data bigendian?\x0a" ++
  "uint32 step           # Full row length in bytes\x0a" ++
  "uint8[] data          # actual matrix data, size is (step * rows)\x0a" ++
  "\x0a" ++
  msgdefSep ++ "\x0a" ++
  "MSG: std_msgs/Header\x0a" ++
  "# Standard metadata for higher-level stamped data types.\x0a" ++
  "# This is generally used to communicate timestamped data \x0a" ++
  "# in a particular coordinate frame.\x0a" ++
  "# \x0a" ++
  "# sequence ID: consecutively increasing ID \x0a" ++
  "uint32 seq\x0a" ++
  "#Two-integer timestamp that is expressed as:\x0a" ++
  "#   * stamp.sec: seconds (stamp_secs) since epoch (in Python the variable is called \x27secs\x27)\x0a" ++
  "#   * stamp.nsec: nanoseconds since stamp_secs (in Python the variable is called \x27nsecs\x27)\x0a" ++
  "# time-handling sugar is provided by the client library\x0a" ++
  "time stamp\x0a" ++
  "#Frame this data is associated with\x0a" ++
  "string frame_id\x0a"

/-- `PREDEFINED_BASE['sensor_msgs/msg/Imu'].msgdef` (verbatim). -/
def imuMsgdef : String :=
  "# This is a message to hold data from an IMU (Inertial Measurement Unit)\x0a" ++
  "#\x0a" ++
  "# Accelerations should be in m/s^2 (not in g\x27s), and rotational velocity should be in rad/sec\x0a" ++
  "#\x0a" ++
  "# If the covariance of the measurement is known, it should be filled in (if all you know is the \x0a" ++
  "# variance of each measurement, e.g. from the datasheet, just put those along the diagonal)\x0a" ++
  "# A covariance matrix of all zeros will be interpreted as \x22covariance unknown\x22, and to use the\x0a" ++
  "# data a covariance will have to be assumed or gotten from some other source\x0a" ++
  "#\x0a" ++
  "# If you have no estimate for one of the data elements (e.g. your IMU doesn\x27t produce an orientation \x0a" ++
  "# estimate), please set element 0 of the associated covariance matrix to -1\x0a" ++
  "# If you are interpreting this message, please check for a value of -1 in the first element of each \x0a" ++
  "# covariance matrix, and disregard the associated estimate.\x0a" ++
  "\x0a" ++
  "Header header\x0a" ++
  "\x0a" ++
  "geometry_msgs/Quaternion orientation\x0a" ++
  "float64[9] orientation_covariance # Row major about x, y, z axes\x0a" ++
  "\x0a" ++
  "geometry_msgs/Vector3 angular_velocity\x0a" ++
  "float64[9] angular_velocity_covariance # Row major about x, y, z axes\x0a" ++
  "\x0a" ++
  "geometry_msgs/Vector3 linear_acceleration\x0a" ++
  "float64[9] linear_acceleration_covariance # Row major x, y z \x0a" ++
  "\x0a" ++
  msgdefSep ++ "\x0a" ++
  "MSG: std_msgs/Header\x0a" ++
  "# Standard metadata for higher-level stamped data types.\x0a" ++
  "# This is generally used to communicate timestamped data \x0a" ++
  "# in a particular coordinate frame.\x0a" ++
  "# \x0a" ++
  "# sequence ID: consecutively increasing ID \x0a" ++
  "uint32 seq\x0a" ++
  "#Two-integer timestamp that is expressed as:\x0a" ++
  "#   * stamp.sec: seconds (stamp_secs) since epoch (in Python the variable is called \x27secs\x27)\x0a" ++
  "#   * stamp.nsec: nanoseconds since stamp_secs (in Python the variable is called \x27nsecs\x27)\x0a" ++
  "# time-handling sugar is provided by the client library\x0a" ++
  "time stamp\x0a" ++
  "#Frame this data is associated with\x0a" ++
  "string frame_id\x0a" ++
  "\x0a" ++
  msgdefSep ++ "\x0a" ++
  "MSG: geometry_msgs/Quaternion\x0a" ++
  "# This represents an orientation in free space in quaternion form.\x0a" ++
  "\x0a" ++
  "float64 x\x0a" ++
  "float64 y\x0a" ++
  "float64 z\x0a" ++
  "float64 w\x0a" ++
  "\x0a" ++
  msgdefSep ++ "\x0a" ++
  "MSG: geometry_msgs/Vector3\x0a" ++
  "# This represents a vector in free space. \x0a" ++
  "# It is only meant to represent a direction. Therefore, it does not\x0a" ++
  "# make sense to apply a translation to it (e.g., when applying a \x0a" ++
  "# generic rigid transformation to a Vector3, tf2 will only apply the\x0a" ++
  "# rotation). If you want your data to be translatable too, use the\x0a" ++
  "# geometry_msgs/Point message instead.\x0a" ++
  "\x0a" ++
  "float64 x\x0a" ++
  "float64 y\x0a" ++
  "float64 z\x0a"

/-- `PREDEFINED_BASE`: well-known msgtype to `(msgdef, md5sum)`. -/
def predefinedBase : List (String × String × String) :=
  [("std_msgs/msg/Int8", "int8 data\x0a", "27ffa0c9c4b8fb8492252bcad9e5c57b"),
   ("sensor_msgs/msg/CompressedImage",
     "std_msgs/Header header\x0astring format\x0auint8[] data\x0a",
     "8f7a12909da2c9d3332d540a0977563f"),
   ("sensor_msgs/msg/Image", imageMsgdef, "060021388200f6f0f447d0fcd9c64743"),
   ("sensor_msgs/msg/Imu", imuMsgdef, "6a62c6daae103f4ff57a132d6f95cec2")]

/-- `PREDEFINED`: the base table plus an alias per entry with the first
`/msg/` replaced by `/` (each key holds `/msg/` exactly once, so replacing
every occurrence agrees with the JS first-occurrence `String.replace`). -/
def predefinedTable : List (String × String × String) :=
  predefinedBase ++
    predefinedBase.map (fun e => (e.1.replace "/msg/" "/", e.2.1, e.2.2))

/-- `PREDEFINED[msgtype]` lookup. -/
def lookupPredef (msgtype : String) : Option (String × String) :=
  (predefinedTable.find? (fun e => decide (e.1 = msgtype))).map (fun e => e.2)

-- -------------------------------------------------------------------------
-- addConnection
-- -------------------------------------------------------------------------

/-- `_writeConnectionRecord(connection, chunk)` with the active chunk as the
target: push the two serialized headers. -/
def Writer.writeConnectionRecordToChunk (w : Writer) (c : Connection) : Writer :=
  let chunk := w.activeChunk
  let chunk := chunk.push (connectionHeaderBuf1 c)
  let chunk := chunk.push (connectionHeaderBuf2 c)
  w.setActiveChunk chunk

/-- The duplicate test of `addConnection`: some existing connection agrees on
all six identifying fields. -/
def Writer.isDuplicate (w : Writer) (c : Connection) : Bool :=
  w.connections.any (fun x =>
    decide (x.topic = c.topic) && decide (x.msgtype = c.msgtype) &&
    decide (x.msgdef = c.msgdef) && decide (x.md5sum = c.md5sum) &&
    decide (x.ext.callerid = c.ext.callerid) &&
    decide (x.ext.latching = c.ext.latching))

/-- The schema-resolution step of `addConnection`: fill a `null` `msgdef` or
`md5sum` from the predefined table (looked up only when one of them is
`null`). -/
def resolveSchema (msgtype : String) (msgdef0 md5sum0 : Option String) :
    Option String × Option String :=
  let pre := if msgdef0.isNone || md5sum0.isNone then lookupPredef msgtype else none
  (match msgdef0, pre with
   | none, some pr => some pr.1
   | m, _ => m,
   match md5sum0, pre with
   | none, some pr => some pr.2
   | m, _ => m)

/-- The `new Connection(this.connections.length, ...)` expression of
`addConnection`. -/
def mkConnection (w : Writer) (topic msgtype msgdef md5sum : String)
    (callerid : Option String) (latching : Option Int) : Connection :=
  { id := w.connections.length, topic := topic, msgtype := msgtype,
    msgdef := msgdef, md5sum := md5sum,
    ext := { callerid := callerid, latching := latching } }

/-- The success path of `addConnection`: write the connection record into the
current chunk, then `this.connections.push(connection)`. -/
def Writer.pushConnection (w : Writer) (c : Connection) : Writer :=
  { w.writeConnectionRecordToChunk c with
    connections := (w.writeConnectionRecordToChunk c).connections ++ [c] }

/-- `Writer.addConnection`.  Returns the writer state after the call together
with the thrown error or the new connection; every JS `throw` happens before
any state mutation, so the pre-call writer is returned on error. -/
def Writer.addConnection (w : Writer) (topic msgtype : String)
    (msgdef0 md5sum0 callerid : Option String) (latching : Option Int) :
    Writer × Except String Connection :=
  if !w.opened then (w, .error "Bag was not opened.")
  else
    match resolveSchema msgtype msgdef0 md5sum0 with
    | (some msgdef, some md5sum) =>
      if w.isDuplicate (mkConnection w topic msgtype msgdef md5sum callerid latching) then
        (w, .error "Connections can only be added once with same arguments")
      else
        (w.pushConnection (mkConnection w topic msgtype msgdef md5sum callerid latching),
         .ok (mkConnection w topic msgtype msgdef md5sum callerid latching))
    | (_, _) =>
      (w, .error "msgdef and md5sum required (auto-generation not implemented)")

-- -------------------------------------------------------------------------
-- write
-- -------------------------------------------------------------------------

/-- The MSGDATA record header: `conn:u32`, `time`, opcode MSGDATA. -/
def msgdataHeaderBuf (connId timestamp : Nat) : Bytes :=
  (((Header.empty).setUint32 "conn" connId).setTime "time" timestamp).serialize
    (some RecordType.MSGDATA)

/-- The index-entry bookkeeping of `write`: create the per-connection entry
list if missing, then append `(timestamp, chunk.offset)` (the offset *before*
the message bytes are appended). -/
def WriteChunk.addIndexEntry (c : WriteChunk) (cid timestamp : Nat) : WriteChunk :=
  { c with connections :=
      ((if c.connections.any (fun p => decide (p.1 = cid)) then c.connections
        else c.connections ++ [(cid, [])]).map
        (fun p => if p.1 = cid then (p.1, p.2 ++ [(timestamp, c.offset)])
          else p)) }

/-- The chunk update performed by `write` before the threshold check:
index entry, start/end update, and the three pushes (MSGDATA header, u32
payload length, payload). -/
def Writer.writeChunkUpdate (w : Writer) (connection : Connection)
    (timestamp : Nat) (data : Bytes) : WriteChunk :=
  let chunk := w.activeChunk
  let chunk := chunk.addIndexEntry connection.id timestamp
  let chunk := { chunk with start := min chunk.start timestamp,
                            «end» := max chunk.«end» timestamp }
  let headerBuf := msgdataHeaderBuf connection.id timestamp
  let lenBuf := serializeUInt32 data.length
  ((chunk.push headerBuf).push lenBuf).push data

-- -------------------------------------------------------------------------
-- Chunk flush (_writeChunk)
-- -------------------------------------------------------------------------

/-- The CHUNK record header: `compression`, `size:u32`, opcode CHUNK. -/
def chunkHeaderBuf (compressionFormat : String) (size : Nat) : Bytes :=
  (((Header.empty).setString "compression" compressionFormat).setUint32
      "size" size).serialize (some RecordType.CHUNK)

/-- The IDXDATA record header: `ver:u32 = 1`, `conn:u32`, `count:u32`,
opcode IDXDATA. -/
def idxHeaderBuf (cid count : Nat) : Bytes :=
  ((((Header.empty).setUint32 "ver" 1).setUint32 "conn" cid).setUint32
      "count" count).serialize (some RecordType.IDXDATA)

/-- One IDXDATA body entry: 8-byte time then `offset:u32`
(`Buffer.concat([serializeTime(time), serializeUInt32(offset)])`). -/
def idxEntryBuf (time offset : Nat) : Bytes :=
  serializeTime time ++ serializeUInt32 offset

/-- The buffers written (in order) by the per-connection index loop of
`_writeChunk`: for each map entry, the IDXDATA header, the u32 body length
`items.length * 12`, then one buffer per entry. -/
def idxBufs (connections : List (Nat × List (Nat × Nat))) : List Bytes :=
  (connections.map (fun p =>
    [idxHeaderBuf p.1 p.2.length, serializeUInt32 (p.2.length * 12)] ++
      p.2.map (fun e => idxEntryBuf e.1 e.2))).flatten

/-- `_writeChunk` applied to the active chunk (both call sites pass
`this.chunks[this.chunks.length - 1]`): skip when `size == 0`; otherwise set
`pos = filePos`, write the CHUNK header, the u32 body length, the body, the
per-connection index records, and append a fresh chunk.  (The JS `throw` when
not opened is unreachable: both callers check `_opened` first.) -/
def Writer.writeChunkLast (w : Writer) : Writer :=
  let chunk := w.activeChunk
  if chunk.size = 0 then w
  else
    let chunk := { chunk with pos := (w.filePos : Int) }
    let w2 := w.writeToBag (chunkHeaderBuf w.compressionFormat chunk.size)
    let chunkDataBuf := chunk.toBuffer
    let w2 := w2.writeToBag (serializeUInt32 chunkDataBuf.length)
    let w2 := w2.writeToBag chunkDataBuf
    let w2 := (idxBufs chunk.connections).foldl Writer.writeToBag w2
    { w2 with chunks := w.chunks.dropLast ++ [chunk, WriteChunk.init] }

/-- `Writer.write`: guard checks, chunk update, threshold-driven flush.
(JS membership of `connection` in `this.connections` is object identity; the
structural test here agrees on every connection actually produced by
`addConnection`, whose ids are pairwise distinct.) -/
def Writer.write (w : Writer) (connection : Connection) (timestamp : Nat)
    (data : Bytes) : Except String Writer :=
  if !w.opened then .error "Bag was not opened."
  else if !(w.connections.any (fun x => decide (x = connection))) then
    .error "There is no connection."
  else
    let chunk := w.writeChunkUpdate connection timestamp data
    let w := w.setActiveChunk chunk
    if chunk.size > w.chunkThreshold then .ok w.writeChunkLast else .ok w

-- -------------------------------------------------------------------------
-- close
-- -------------------------------------------------------------------------

/-- The CHUNK_INFO record header for a flushed chunk: `ver:u32 = 1`,
`chunk_pos:u64`, `start_time` (0 when `start` is still the unset sentinel),
`end_time`, `count:u32`, opcode CHUNK_INFO. -/
def chunkInfoHeaderBuf (c : WriteChunk) : Bytes :=
  (((((Header.empty).setUint32 "ver" 1).setUint64 "chunk_pos"
      c.pos.toNat).setTime "start_time"
      (if c.start = maxSafeInteger then 0 else c.start)).setTime
      "end_time" c.«end»).setUint32 "count" c.connections.length
  |>.serialize (some RecordType.CHUNK_INFO)

/-- The CHUNK_INFO body: for each map entry in iteration order, `cid:u32`
then `items.length:u32`. -/
def connInfoBuf (c : WriteChunk) : Bytes :=
  (c.connections.map (fun p =>
    serializeUInt32 p.1 ++ serializeUInt32 p.2.length)).flatten

/-- Step 1 of `close()`: flush the active chunk when it was never flushed
(`pos == -1`); `_writeChunk` itself skips empty chunks. -/
def Writer.closeFlushStep (w : Writer) : Writer :=
  if w.activeChunk.pos = -1 then w.writeChunkLast else w

/-- One step of the connection-replay loop of `close()`: write the two
serialized connection headers to the sink. -/
def connRecordStep (w : Writer) (conn : Connection) : Writer :=
  (w.writeToBag (connectionHeaderBuf1 conn)).writeToBag
    (connectionHeaderBuf2 conn)

/-- One step of the CHUNK_INFO loop of `close()`: skip unflushed chunks;
otherwise write the CHUNK_INFO header, the u32 body length and the body. -/
def chunkInfoStep (w : Writer) (chunk : WriteChunk) : Writer :=
  if chunk.pos = -1 then w
  else
    ((w.writeToBag (chunkInfoHeaderBuf chunk)).writeToBag
      (serializeUInt32 (connInfoBuf chunk).length)).writeToBag
      (connInfoBuf chunk)

/-- Steps 2-3 of `close()` after `indexPos` is recorded: replay every
connection record directly into the sink, then emit one CHUNK_INFO record
per flushed chunk (iterating `this.chunks` of the state after the replay). -/
def Writer.closeTail (w : Writer) : Writer :=
  ((w.connections.foldl connRecordStep w).chunks).foldl chunkInfoStep
    (w.connections.foldl connRecordStep w)

/-- `Buffer.copy` of `b` into `arr` at `off` (copies at most to the end of
`arr`, never extends it). -/
def patchBytes (arr : Bytes) (off : Nat) (b : Bytes) : Bytes :=
  arr.take off ++ b.take (arr.length - off) ++ arr.drop (off + b.length)

/-- `this.chunks.filter((c) => c.pos !== -1).length`, the `chunk_count`
written into the final BAGHEADER. -/
def flushedCount (cs : List WriteChunk) : Nat :=
  (cs.filter (fun c => decide (c.pos ≠ -1))).length

/-- Step 5 of `close()` (in-memory branch): build the final BAGHEADER and
padding, patch them over the preliminary ones at offset 13 of the
concatenated output, store `_finalData` and clear `_opened`. -/
def Writer.closeFinalize (w : Writer) (indexPos : Nat) : Writer :=
  let finalHeaderBuf := bagheaderBuf indexPos w.connections.length
    (flushedCount w.chunks)
  let padBuf := padRecord finalHeaderBuf.length
  let arr := w.buffers.flatten
  let arr := patchBytes arr 13 finalHeaderBuf
  let arr := patchBytes arr (13 + finalHeaderBuf.length) padBuf
  { w with finalData := some arr, opened := false }

/-- `Writer.close` (in-memory mode): no-op when not opened; otherwise flush
the never-flushed active chunk, record `indexPos`, write the tail, and
finalize the header region. -/
def Writer.close (w : Writer) : Writer :=
  if !w.opened then w
  else
    let w1 := w.closeFlushStep
    let indexPos := w1.filePos
    (w1.closeTail).closeFinalize indexPos

-- -------------------------------------------------------------------------
-- File mode (constructor and open), for the overwrite-protection claims
-- -------------------------------------------------------------------------

/-- The file system visible to a file-mode writer: path to contents. -/
abbrev FileSystem := List (String × Bytes)

/-- `fs.existsSync(path)`. -/
def existsSync (s : FileSystem) (path : String) : Bool :=
  s.any (fun e => decide (e.1 = path))

/-- Modelled from Node `fs.openSync(path, 'wx')`: exclusive create, throwing
`EEXIST` when the path already exists, otherwise creating an empty file. -/
def openSyncWx (s : FileSystem) (path : String) : Except String FileSystem :=
  if existsSync s path then .error "EEXIST" else .ok (s ++ [(path, [])])

/-- Positional `fs.writeSync` into one file content: overwrite at `pos`,
zero-extending when writing past the end. -/
def writeAt (content : Bytes) (pos : Nat) (b : Bytes) : Bytes :=
  content.take pos ++ List.replicate (pos - content.length) 0 ++ b ++
    content.drop (pos + b.length)

/-- `fs.writeSync(fd, b, 0, b.length, pos)` for the file at `path`. -/
def fsWriteSync (s : FileSystem) (path : String) (pos : Nat) (b : Bytes) :
    FileSystem :=
  s.map (fun e => if e.1 = path then (e.1, writeAt e.2 pos b) else e)

/-- The `Writer` fields relevant to file mode (`dest` a string). -/
structure FileWriter where
  path : String
  fdOpen : Bool
  filePos : Nat
  opened : Bool
deriving DecidableEq

/-- `new Writer(dest)` in file mode: the constructor throws when
`fs.existsSync(this.path)` holds, before acquiring any resource. -/
def FileWriter.construct (s : FileSystem) (path : String) :
    Except String FileWriter :=
  if existsSync s path then .error "exists already, not overwriting."
  else .ok { path := path, fdOpen := false, filePos := 0, opened := false }

/-- `Writer.open` in file mode: no-op when `fd` is set or already opened;
otherwise `fs.openSync(path, 'wx')` (throwing `EEXIST` without touching the
file system when the path exists), then the magic, preliminary BAGHEADER and
padding via positional writes.  Returns the resulting file system and writer
together with the thrown error, if any. -/
def FileWriter.openBag (w : FileWriter) (s : FileSystem) :
    (FileSystem × FileWriter) × Option String :=
  if w.fdOpen || w.opened then ((s, w), none)
  else
    match openSyncWx s w.path with
    | .error e => ((s, w), some e)
    | .ok s =>
      let w := { w with fdOpen := true }
      let s := fsWriteSync s w.path w.filePos magicBytes
      let w := { w with filePos := w.filePos + magicBytes.length }
      let headerBuf := bagheaderBuf 0 0 0
      let s := fsWriteSync s w.path w.filePos headerBuf
      let w := { w with filePos := w.filePos + headerBuf.length }
      let pad := padRecord headerBuf.length
      let s := fsWriteSync s w.path w.filePos pad
      let w := { w with filePos := w.filePos + pad.length, opened := true }
      ((s, w), none)

-- -------------------------------------------------------------------------
-- Derived byte-level views of the writer's output (used by the theorems)
-- -------------------------------------------------------------------------

/-- The field list emitted by `Header.serialize`: the `op` keqv first when an
opcode is given, then one `key=value` keqv per field in insertion order. -/
def emittedKeqvs (fields : List (String × Bytes)) (opcode : Option Nat) :
    List Bytes :=
  (match opcode with
   | some op => [strBytes "op=" ++ serializeUInt8 op]
   | none => []) ++ fields.map (fun p => keqvBytes p.1 p.2)

/-- The buffers `_writeChunk` sends to the sink when it flushes the active
chunk: the CHUNK header, the u32 body length, the body, then the IDXDATA
records. -/
def Writer.flushBufs (w : Writer) : List Bytes :=
  chunkHeaderBuf w.compressionFormat w.activeChunk.size ::
    serializeUInt32 w.activeChunk.toBuffer.length ::
    w.activeChunk.toBuffer :: idxBufs w.activeChunk.connections

/-- The buffers the connection-replay loop of `close()` sends to the sink. -/
def connRecBufs (cs : List Connection) : List Bytes :=
  (cs.map (fun c => [connectionHeaderBuf1 c, connectionHeaderBuf2 c])).flatten

/-- The buffers the CHUNK_INFO loop of `close()` sends to the sink (flushed
chunks only). -/
def chunkInfoBufsList (ks : List WriteChunk) : List Bytes :=
  (ks.map (fun ch => if ch.pos = -1 then [] else
    [chunkInfoHeaderBuf ch, serializeUInt32 (connInfoBuf ch).length,
     connInfoBuf ch])).flatten

/-- JS `chunk.connections.get(cid)`. -/
def lookupEntries (l : List (Nat × List (Nat × Nat))) (cid : Nat) :
    Option (List (Nat × Nat)) :=
  (l.find? (fun p => decide (p.1 = cid))).map (fun p => p.2)

/-- The timestamps of all index entries recorded in a chunk connection map —
exactly one per message written into the chunk. -/
def chunkTimes (conns : List (Nat × List (Nat × Nat))) : List Nat :=
  (conns.map (fun p => p.2.map Prod.fst)).flatten

/-- The bookkeeping invariant of a chunk: `start`/`end` track the running
min/max of the recorded message timestamps (with their initial values as the
folds' bases), the per-connection map has pairwise distinct keys, and every
entry list is nonempty. -/
def timesOK (c : WriteChunk) : Prop :=
  c.start = (chunkTimes c.connections).foldl min maxSafeInteger ∧
  c.«end» = (chunkTimes c.connections).foldl max 0 ∧
  (c.connections.map Prod.fst).Nodup ∧
  ∀ p ∈ c.connections, p.2 ≠ []

instance (c : WriteChunk) : Decidable (timesOK c) := by
  unfold timesOK
  infer_instance

-- -------------------------------------------------------------------------
-- Concrete scenario values (used by the witnesses)
-- -------------------------------------------------------------------------

/-- The one-connection writer used by concrete scenarios. -/
def wOneConn : Writer :=
  (Writer.init.openBag.addConnection "/foo" "test_msgs/msg/Test"
    (some "MESSAGE_DEFINITION") (some "HASH") none none).1

/-- The connection added first into `wOneConn`. -/
def connFoo : Connection :=
  mkConnection Writer.init.openBag "/foo" "test_msgs/msg/Test"
    "MESSAGE_DEFINITION" "HASH" none none

/-- A small already-open writer with a 5-byte chunk threshold, to exercise
chunk rotation on tiny inputs. -/
def wSmall : Writer :=
  { buffers := [], filePos := 0, opened := true, compressionFormat := "none",
    connections := [connFoo], chunkThreshold := 5,
    chunks := [WriteChunk.init], finalData := none }

/-- `wOneConn` after one message on `connFoo`. -/
def wMsg : Writer :=
  ((wOneConn.write connFoo 42 (strBytes "DEADBEEF")).toOption).getD Writer.init

/-- `wSmall` after one message timestamped `Number.MAX_SAFE_INTEGER`
(`2^53 - 1`, exactly representable as a JS number); the 5-byte threshold
makes `write` flush the chunk immediately. -/
def wBadFlushed : Writer :=
  ((wSmall.write connFoo maxSafeInteger
    (strBytes "DEADBEEF")).toOption).getD Writer.init

/-- The chunk flushed inside `wBadFlushed`: the updated active chunk with
`pos` stamped to the file position at flush time. -/
def cBad : WriteChunk :=
  { wSmall.writeChunkUpdate connFoo maxSafeInteger (strBytes "DEADBEEF") with
    pos := (wSmall.filePos : Int) }

-- -------------------------------------------------------------------------
-- Helper lemmas
-- -------------------------------------------------------------------------

theorem serializeUInt32_length (v : Nat) : (serializeUInt32 v).length = 4 := rfl

theorem serializeUInt64_length (v : Nat) : (serializeUInt64 v).length = 8 := rfl

theorem serializeTime_length (ns : Nat) : (serializeTime ns).length = 8 := rfl

theorem serialize_foldl_eq (fields : List (String × Bytes))
    (parts0 : List Bytes) (n0 : Nat) :
    fields.foldl (fun (acc : List Bytes × Nat) p =>
      (acc.1 ++ [serializeUInt32 (keqvBytes p.1 p.2).length, keqvBytes p.1 p.2],
       acc.2 + (4 + (keqvBytes p.1 p.2).length))) (parts0, n0) =
    (parts0 ++ (fields.map (fun p =>
        [serializeUInt32 (keqvBytes p.1 p.2).length, keqvBytes p.1 p.2])).flatten,
     n0 + (fields.map (fun p => 4 + (keqvBytes p.1 p.2).length)).sum) := by
  induction fields generalizing parts0 n0 with
  | nil => simp
  | cons a l ih => simp [ih, Nat.add_assoc]

theorem flatten_pairs {α : Type} (l : List α) (f g : α → Bytes) :
    ((l.map (fun p => [f p, g p])).flatten).flatten =
      (l.map (fun p => f p ++ g p)).flatten := by
  induction l with
  | nil => rfl
  | cons a t ih => simp [ih]

theorem flatten_records_length (ks : List Bytes) :
    ((ks.map (fun k => serializeUInt32 k.length ++ k)).flatten).length =
      (ks.map (fun k => 4 + k.length)).sum := by
  induction ks with
  | nil => rfl
  | cons a t ih =>
    simp only [List.map_cons, List.flatten_cons, List.length_append,
      List.sum_cons, serializeUInt32_length, ih]

-- -------------------------------------------------------------------------
-- C8: header record framing
-- -------------------------------------------------------------------------

/-- `Header.serialize` written as a map over the emitted keqv list. -/
theorem serialize_parts (fields : List (String × Bytes)) (opcode : Option Nat) :
    Header.serialize ⟨fields⟩ opcode =
      serializeUInt32 ((emittedKeqvs fields opcode).map
          (fun k => 4 + k.length)).sum ++
        ((emittedKeqvs fields opcode).map
          (fun k => serializeUInt32 k.length ++ k)).flatten := by
  cases opcode with
  | none =>
    simp only [Header.serialize, emittedKeqvs, serialize_foldl_eq,
      List.nil_append, Nat.zero_add, List.map_map]
    rw [flatten_pairs]
    rfl
  | some op =>
    simp only [Header.serialize, emittedKeqvs, serialize_foldl_eq,
      List.map_map, List.cons_append, List.nil_append, List.map_cons,
      List.sum_cons, List.flatten_cons]
    rw [flatten_pairs]
    rfl

/-- The serialized header is exactly `4 + D` bytes long for
`D = Σ (4 + L_i)`. -/
theorem serialize_length (fields : List (String × Bytes)) (opcode : Option Nat) :
    (Header.serialize ⟨fields⟩ opcode).length =
      4 + ((emittedKeqvs fields opcode).map (fun k => 4 + k.length)).sum := by
  rw [serialize_parts, List.length_append, serializeUInt32_length,
    flatten_records_length]

/-- C8: for every header (an ordered key-to-value map) and optional opcode,
`Header.serialize` emits the synthetic `op` field first when an opcode is
given, then every field in insertion order as a 4-byte little-endian length
`L` followed by exactly the `L` bytes of `key`, `=`, and the value bytes,
all prefixed by a 4-byte little-endian total `D` equal to the sum of
`(4 + L_i)` over the emitted fields including `op`; the resulting buffer is
exactly `4 + D` bytes long. -/
theorem header_serialize_framing (fields : List (String × Bytes))
    (opcode : Option Nat) :
    Header.serialize ⟨fields⟩ opcode =
      serializeUInt32 ((emittedKeqvs fields opcode).map
          (fun k => 4 + k.length)).sum ++
        ((emittedKeqvs fields opcode).map
          (fun k => serializeUInt32 k.length ++ k)).flatten ∧
    (Header.serialize ⟨fields⟩ opcode).length =
      4 + ((emittedKeqvs fields opcode).map (fun k => 4 + k.length)).sum :=
  ⟨serialize_parts fields opcode, serialize_length fields opcode⟩

-- -------------------------------------------------------------------------
-- Concrete-size helper lemmas
-- -------------------------------------------------------------------------

theorem magicBytes_length : magicBytes.length = 13 := by decide

set_option maxRecDepth 2000 in
theorem bagheaderBuf_length (i c k : Nat) : (bagheaderBuf i c k).length = 73 := by
  have hfields : (((Header.empty).setUint64 "index_pos" i).setUint32
      "conn_count" c).setUint32 "chunk_count" k =
      (⟨[("index_pos", serializeUInt64 i), ("conn_count", serializeUInt32 c),
        ("chunk_count", serializeUInt32 k)]⟩ : Header) := rfl
  unfold bagheaderBuf
  rw [hfields, serialize_length]
  simp [emittedKeqvs, keqvBytes, strBytes, serializeUInt8,
    serializeUInt32_length, serializeUInt64_length]

theorem padRecord_length (n : Nat) :
    (padRecord n).length = 4 + (4096 - 4 - (n - 4)) := by
  simp [padRecord, serializeUInt32_length]

/-- `open()` on a writer that is not opened: explicit state equations. -/
theorem openBag_not_opened (w : Writer) (h : w.opened = false) :
    w.openBag = { w with
      buffers := w.buffers ++ [magicBytes, bagheaderBuf 0 0 0,
        padRecord (bagheaderBuf 0 0 0).length],
      filePos := w.filePos + 4113,
      opened := true } := by
  have h73 : (bagheaderBuf 0 0 0).length = 73 := bagheaderBuf_length 0 0 0
  simp only [Writer.openBag, Writer.writeToBag, h, Bool.false_eq_true, if_false]
  simp [magicBytes_length, h73, padRecord_length, Nat.add_assoc]

theorem patchBytes_exact (x b y b2 : Bytes) (h : b2.length = b.length) :
    patchBytes (x ++ (b ++ y)) x.length b2 = x ++ (b2 ++ y) := by
  unfold patchBytes
  have h1 : (x ++ (b ++ y)).take x.length = x := by
    simp
  have h2 : b2.take ((x ++ (b ++ y)).length - x.length) = b2 := by
    apply List.take_of_length_le
    simp [h]
  have h3 : (x ++ (b ++ y)).drop (x.length + b2.length) = y := by
    rw [h, ← List.append_assoc,
      show x.length + b.length = (x ++ b).length by simp,
      List.drop_left]
  rw [h1, h2, h3, List.append_assoc]

-- -------------------------------------------------------------------------
-- C1: open() envelope size and empty-bag index_pos (code bug)
-- -------------------------------------------------------------------------

/-- C1: the claim states that the preliminary BAGHEADER plus padding written
by `open()` at offset 13 span exactly 4096 bytes (region `[13..4109)`) and
that an empty bag ends with `index_pos = 4109`.  The code computes
`padsize = 4096 - 4 - (headerBuf.length - 4)`, subtracting the 4-byte length
prefix twice, so the envelope actually spans `73 + 4027 = 4100` bytes
(region `[13..4113)`) and an open-then-close bag records
`index_pos = 4113`: the final in-memory data is exactly the magic followed
by `bagheaderBuf 4113 0 0` and the 4027-byte padding record. -/
theorem open_close_header_envelope :
    (bagheaderBuf 0 0 0).length = 73 ∧
    (padRecord 73).length = 4027 ∧
    Writer.init.openBag.filePos = 4113 ∧
    Writer.init.openBag.close.finalData =
      some (magicBytes ++ (bagheaderBuf 4113 0 0 ++ padRecord 73)) ∧
    ((bagheaderBuf 4113 0 0).drop 16).take 10 = strBytes "index_pos=" ∧
    ((bagheaderBuf 4113 0 0).drop 26).take 8 = serializeUInt64 4113 := by
  have h73 : (bagheaderBuf 0 0 0).length = 73 := bagheaderBuf_length 0 0 0
  have h73b : (bagheaderBuf 4113 0 0).length = 73 := bagheaderBuf_length 4113 0 0
  have hopen : Writer.init.openBag =
      { buffers := [magicBytes, bagheaderBuf 0 0 0, padRecord 73],
        filePos := 4113, opened := true, compressionFormat := "none",
        connections := [], chunkThreshold := 1 * (1 <<< 20),
        chunks := [WriteChunk.init], finalData := none } := by
    rw [openBag_not_opened Writer.init rfl]
    simp [Writer.init, h73]
  have hclose : Writer.init.openBag.close.finalData =
      some (patchBytes (patchBytes
          ([magicBytes, bagheaderBuf 0 0 0, padRecord 73].flatten) 13
          (bagheaderBuf 4113 0 0))
        (13 + (bagheaderBuf 4113 0 0).length)
        (padRecord (bagheaderBuf 4113 0 0).length)) := by
    rw [hopen]
    rfl
  refine ⟨h73, by rw [padRecord_length], by rw [hopen], ?_, by decide, by decide⟩
  rw [hclose, h73b]
  have hflat : [magicBytes, bagheaderBuf 0 0 0, padRecord 73].flatten =
      magicBytes ++ (bagheaderBuf 0 0 0 ++ padRecord 73) := by
    simp
  rw [hflat]
  have hp1 : patchBytes (magicBytes ++ (bagheaderBuf 0 0 0 ++ padRecord 73)) 13
      (bagheaderBuf 4113 0 0) =
      magicBytes ++ (bagheaderBuf 4113 0 0 ++ padRecord 73) := by
    rw [show (13 : Nat) = magicBytes.length from magicBytes_length.symm]
    exact patchBytes_exact magicBytes (bagheaderBuf 0 0 0) (padRecord 73)
      (bagheaderBuf 4113 0 0) (h73b.trans h73.symm)
  rw [hp1]
  have hshape : magicBytes ++ (bagheaderBuf 4113 0 0 ++ padRecord 73) =
      (magicBytes ++ bagheaderBuf 4113 0 0) ++ (padRecord 73 ++ []) := by
    simp
  have hlen86 : (13 : Nat) + 73 = (magicBytes ++ bagheaderBuf 4113 0 0).length := by
    simp [magicBytes_length, h73b]
  rw [hshape, hlen86]
  rw [patchBytes_exact (magicBytes ++ bagheaderBuf 4113 0 0) (padRecord 73) []
    (padRecord 73) rfl]

-- -------------------------------------------------------------------------
-- C2: phase transitions (corrected: in-memory reopen is possible)
-- -------------------------------------------------------------------------

/-- C2 counterexample: after `close()`, a second `open()` of an in-memory
writer makes the writer Open again (and appends a fresh open sequence of
three more sink buffers), so the Closed state is not terminal. -/
theorem reopen_after_close_counterexample :
    (Writer.init.openBag.close.openBag).opened = true ∧
    (Writer.init.openBag.close.openBag).buffers.length = 6 := by
  constructor
  · rfl
  · have hop : Writer.init.openBag.close.opened = false := rfl
    rw [openBag_not_opened _ hop]
    rfl

/-- C2 amended: `open()` when already Open and `close()` when already Closed
are no-ops that write no bytes and change no state; but the transitions are
not one-way: `open()` on a writer that is not Open (including one that was
closed) re-runs the open sequence, appending magic, preliminary BAGHEADER
and padding, and returns the writer to Open. -/
theorem open_close_idempotent (w : Writer) :
    (w.opened = true → w.openBag = w) ∧
    (w.opened = false → w.close = w) ∧
    (w.opened = false → (w.openBag).opened = true ∧
      (w.openBag).buffers = w.buffers ++
        [magicBytes, bagheaderBuf 0 0 0, padRecord (bagheaderBuf 0 0 0).length]) := by
  refine ⟨fun h => ?_, fun h => ?_, fun h => ?_⟩
  · simp [Writer.openBag, h]
  · simp [Writer.close, h]
  · simp [Writer.openBag, Writer.writeToBag, h]

/-- Witness for `open_close_idempotent` at concrete writers. -/
theorem open_close_idempotent_witness :
    Writer.init.openBag.openBag = Writer.init.openBag ∧
    Writer.init.close = Writer.init := by
  exact ⟨(open_close_idempotent Writer.init.openBag).1 rfl,
    (open_close_idempotent Writer.init).2.1 rfl⟩

-- -------------------------------------------------------------------------
-- C10: addConnection atomicity on failure
-- -------------------------------------------------------------------------

theorem addConnection_ok_fields (w : Writer) (topic msgtype : String)
    (msgdef0 md5sum0 callerid : Option String) (latching : Option Int)
    (c : Connection)
    (h : (w.addConnection topic msgtype msgdef0 md5sum0 callerid latching).2 =
      .ok c) :
    c.id = w.connections.length ∧
    (w.addConnection topic msgtype msgdef0 md5sum0 callerid latching).1.connections =
      w.connections ++ [c] ∧
    c.topic = topic ∧ c.msgtype = msgtype ∧
    c.ext = ⟨callerid, latching⟩ := by
  unfold Writer.addConnection at h ⊢
  split at h
  · exact absurd h (by simp)
  · split at h
    · split at h
      · exact absurd h (by simp)
      · simp only [Except.ok.injEq] at h
        subst h
        refine ⟨rfl, ?_, rfl, rfl, rfl⟩
        simp_all [Writer.pushConnection, Writer.writeConnectionRecordToChunk,
          Writer.setActiveChunk, mkConnection]
    · exact absurd h (by simp)

/-- C10: `addConnection` is atomic on failure: whenever it throws (writer
not open, schema missing, or duplicate connection), the writer state is
unchanged — in particular no bytes were appended to any chunk or to the sink
and the connection list is untouched — so a later successful call still
receives the next dense id. -/
theorem addConnection_atomic (w : Writer) (topic msgtype : String)
    (msgdef0 md5sum0 callerid : Option String) (latching : Option Int)
    (e : String)
    (h : (w.addConnection topic msgtype msgdef0 md5sum0 callerid latching).2 =
      .error e) :
    (w.addConnection topic msgtype msgdef0 md5sum0 callerid latching).1 = w ∧
    (∀ topic2 msgtype2 msgdef2 md5sum2 callerid2 latching2 c,
      ((w.addConnection topic msgtype msgdef0 md5sum0 callerid latching).1.addConnection
          topic2 msgtype2 msgdef2 md5sum2 callerid2 latching2).2 = .ok c →
      c.id = w.connections.length) := by
  have hsame :
      (w.addConnection topic msgtype msgdef0 md5sum0 callerid latching).1 = w := by
    by_cases hop : w.opened = true
    · rcases hres : resolveSchema msgtype msgdef0 md5sum0 with ⟨md, m5⟩
      cases md with
      | none => simp [Writer.addConnection, hop, hres]
      | some d =>
        cases m5 with
        | none => simp [Writer.addConnection, hop, hres]
        | some m =>
          by_cases hdup : w.isDuplicate
              (mkConnection w topic msgtype d m callerid latching) = true
          · simp [Writer.addConnection, hop, hres, hdup]
          · exfalso
            simp [Writer.addConnection, hop, hres, hdup] at h
    · simp [Writer.addConnection, hop]
  refine ⟨hsame, fun topic2 msgtype2 msgdef2 md5sum2 callerid2 latching2 c hc => ?_⟩
  rw [hsame] at hc
  exact (addConnection_ok_fields w topic2 msgtype2 msgdef2 md5sum2 callerid2
    latching2 c hc).1

/-- Witness for `addConnection_atomic`: a duplicate `addConnection` fails
and leaves the writer unchanged; the next distinct connection still gets
id 1. -/
theorem addConnection_atomic_witness :
    ((Writer.init.openBag.addConnection "/foo" "test_msgs/msg/Test"
        (some "MESSAGE_DEFINITION") (some "HASH") none none).1.addConnection
        "/foo" "test_msgs/msg/Test" (some "MESSAGE_DEFINITION") (some "HASH")
        none none).2 =
      .error "Connections can only be added once with same arguments" ∧
    ((Writer.init.openBag.addConnection "/foo" "test_msgs/msg/Test"
        (some "MESSAGE_DEFINITION") (some "HASH") none none).1.addConnection
        "/foo" "test_msgs/msg/Test" (some "MESSAGE_DEFINITION") (some "HASH")
        none none).1 =
      (Writer.init.openBag.addConnection "/foo" "test_msgs/msg/Test"
        (some "MESSAGE_DEFINITION") (some "HASH") none none).1 := by
  refine ⟨rfl, ?_⟩
  exact (addConnection_atomic
    (Writer.init.openBag.addConnection "/foo" "test_msgs/msg/Test"
      (some "MESSAGE_DEFINITION") (some "HASH") none none).1
    "/foo" "test_msgs/msg/Test" (some "MESSAGE_DEFINITION") (some "HASH")
    none none "Connections can only be added once with same arguments"
    rfl).1

-- -------------------------------------------------------------------------
-- C5: connection uniqueness and dense zero-based ids
-- -------------------------------------------------------------------------

/-- The duplicate test succeeds exactly when some existing connection agrees
on all six identifying fields. -/
theorem isDuplicate_iff (w : Writer) (c : Connection) :
    w.isDuplicate c = true ↔
      ∃ x ∈ w.connections, x.topic = c.topic ∧ x.msgtype = c.msgtype ∧
        x.msgdef = c.msgdef ∧ x.md5sum = c.md5sum ∧
        x.ext.callerid = c.ext.callerid ∧ x.ext.latching = c.ext.latching := by
  simp [Writer.isDuplicate, List.any_eq_true, Bool.and_eq_true,
    decide_eq_true_eq, and_assoc]

/-- C5: with the schema resolved, `addConnection` raises the duplicate error
iff an existing connection matches on all six identifying fields (topic,
msgtype, msgdef, md5sum, callerid, latching); otherwise it succeeds and the
new connection receives id equal to the number of connections existing
before the call, appended at the end (dense, zero-based ids). -/
theorem addConnection_unique_dense (w : Writer) (topic msgtype : String)
    (msgdef0 md5sum0 callerid : Option String) (latching : Option Int)
    (msgdef md5sum : String)
    (hopen : w.opened = true)
    (hres : resolveSchema msgtype msgdef0 md5sum0 = (some msgdef, some md5sum)) :
    ((∃ x ∈ w.connections, x.topic = topic ∧ x.msgtype = msgtype ∧
        x.msgdef = msgdef ∧ x.md5sum = md5sum ∧ x.ext.callerid = callerid ∧
        x.ext.latching = latching) ↔
      (w.addConnection topic msgtype msgdef0 md5sum0 callerid latching).2 =
        .error "Connections can only be added once with same arguments") ∧
    (∀ c, (w.addConnection topic msgtype msgdef0 md5sum0 callerid latching).2 =
        .ok c →
      c.id = w.connections.length ∧
      (w.addConnection topic msgtype msgdef0 md5sum0 callerid
          latching).1.connections = w.connections ++ [c]) := by
  have hiff := isDuplicate_iff w
    (mkConnection w topic msgtype msgdef md5sum callerid latching)
  refine ⟨?_, fun c hc => ⟨(addConnection_ok_fields w topic msgtype msgdef0
    md5sum0 callerid latching c hc).1, (addConnection_ok_fields w topic
    msgtype msgdef0 md5sum0 callerid latching c hc).2.1⟩⟩
  by_cases hdup : w.isDuplicate
      (mkConnection w topic msgtype msgdef md5sum callerid latching) = true
  · exact ⟨fun _ => by simp [Writer.addConnection, hopen, hres, hdup],
      fun _ => hiff.mp hdup⟩
  · refine ⟨fun hex => absurd (hiff.mpr hex) hdup, fun herr => ?_⟩
    exfalso
    simp [Writer.addConnection, hopen, hres, hdup] at herr

/-- Witness for `addConnection_unique_dense`: re-adding the identical
connection is rejected as a duplicate, while the variant differing only in
`latching` is accepted with the next dense id. -/
theorem addConnection_unique_dense_witness :
    (wOneConn.addConnection "/foo" "test_msgs/msg/Test"
        (some "MESSAGE_DEFINITION") (some "HASH") none none).2 =
      .error "Connections can only be added once with same arguments" ∧
    (mkConnection wOneConn "/foo" "test_msgs/msg/Test" "MESSAGE_DEFINITION"
        "HASH" none (some 1)).id = wOneConn.connections.length ∧
    (wOneConn.addConnection "/foo" "test_msgs/msg/Test"
        (some "MESSAGE_DEFINITION") (some "HASH") none
        (some 1)).1.connections =
      wOneConn.connections ++ [mkConnection wOneConn "/foo"
        "test_msgs/msg/Test" "MESSAGE_DEFINITION" "HASH" none (some 1)] := by
  have hconn : wOneConn.connections = [connFoo] := rfl
  refine ⟨?_, ?_, ?_⟩
  · exact (addConnection_unique_dense wOneConn "/foo" "test_msgs/msg/Test"
      (some "MESSAGE_DEFINITION") (some "HASH") none none
      "MESSAGE_DEFINITION" "HASH" rfl rfl).1.mp
      ⟨connFoo, by rw [hconn]; exact List.mem_singleton.mpr rfl,
        rfl, rfl, rfl, rfl, rfl, rfl⟩
  · exact ((addConnection_unique_dense wOneConn "/foo" "test_msgs/msg/Test"
      (some "MESSAGE_DEFINITION") (some "HASH") none (some 1)
      "MESSAGE_DEFINITION" "HASH" rfl rfl).2 _ rfl).1
  · exact ((addConnection_unique_dense wOneConn "/foo" "test_msgs/msg/Test"
      (some "MESSAGE_DEFINITION") (some "HASH") none (some 1)
      "MESSAGE_DEFINITION" "HASH" rfl rfl).2 _ rfl).2

-- -------------------------------------------------------------------------
-- C9: overwrite protection in file mode
-- -------------------------------------------------------------------------

/-- C9: in file mode, a path that already exists on disk is rejected: at
construction time the `Writer` constructor throws without touching the file
system, and at `open()` time the exclusive-create `openSync` fails with
`EEXIST`, returning the file system (and the writer) unchanged. -/
theorem file_overwrite_protection (s s2 s3 : FileSystem) (path : String)
    (w : FileWriter)
    (hex : existsSync s path = true)
    (hmk : FileWriter.construct s2 path = .ok w)
    (hex3 : existsSync s3 path = true) :
    FileWriter.construct s path = .error "exists already, not overwriting." ∧
    w.openBag s3 = ((s3, w), some "EEXIST") := by
  constructor
  · simp [FileWriter.construct, hex]
  · have hw : w = { path := path, fdOpen := false,
                    filePos := 0, opened := false } := by
      by_cases hex2 : existsSync s2 path = true
      · rw [FileWriter.construct, if_pos hex2] at hmk
        exact absurd hmk (by simp)
      · rw [FileWriter.construct, if_neg hex2] at hmk
        simp only [Except.ok.injEq] at hmk
        exact hmk.symm
    subst hw
    simp [FileWriter.openBag, openSyncWx, hex3]

/-- Witness for `file_overwrite_protection` at a concrete file system. -/
theorem file_overwrite_protection_witness :
    FileWriter.construct [("a.bag", [102, 111, 111])] "a.bag" =
      .error "exists already, not overwriting." ∧
    FileWriter.openBag
        { path := "a.bag", fdOpen := false, filePos := 0, opened := false }
        [("a.bag", [102, 111, 111])] =
      (([("a.bag", [102, 111, 111])],
        { path := "a.bag", fdOpen := false, filePos := 0, opened := false }),
       some "EEXIST") :=
  file_overwrite_protection [("a.bag", [102, 111, 111])] []
    [("a.bag", [102, 111, 111])] "a.bag"
    { path := "a.bag", fdOpen := false, filePos := 0, opened := false }
    rfl rfl rfl

-- -------------------------------------------------------------------------
-- Sink and flush lemmas
-- -------------------------------------------------------------------------

theorem foldl_writeToBag_buffers (l : List Bytes) (w : Writer) :
    (l.foldl Writer.writeToBag w).buffers = w.buffers ++ l := by
  induction l generalizing w with
  | nil => simp
  | cons a t ih => simp [ih, Writer.writeToBag]

theorem foldl_writeToBag_chunks (l : List Bytes) (w : Writer) :
    (l.foldl Writer.writeToBag w).chunks = w.chunks := by
  induction l generalizing w with
  | nil => rfl
  | cons a t ih => simp [ih, Writer.writeToBag]

theorem foldl_writeToBag_connections (l : List Bytes) (w : Writer) :
    (l.foldl Writer.writeToBag w).connections = w.connections := by
  induction l generalizing w with
  | nil => rfl
  | cons a t ih => simp [ih, Writer.writeToBag]

theorem getLastD_concat {α : Type} (l : List α) (a d : α) :
    (l ++ [a]).getLastD d = a := by
  cases h : (l ++ [a]).getLast? with
  | none => simp at h
  | some b =>
    rw [List.getLastD_eq_getLast?, h]
    rw [List.getLast?_concat] at h
    simp at h
    simp [h]

theorem getLastD_append_pair {α : Type} (l : List α) (a b d : α) :
    (l ++ [a, b]).getLastD d = b := by
  rw [show l ++ [a, b] = (l ++ [a]) ++ [b] by simp]
  exact getLastD_concat (l ++ [a]) b d

theorem activeChunk_setActiveChunk (w : Writer) (c : WriteChunk) :
    (w.setActiveChunk c).activeChunk = c := by
  simp [Writer.setActiveChunk, Writer.activeChunk, getLastD_concat]

theorem chunks_eq_dropLast_append (w : Writer) (hne : w.chunks ≠ []) :
    w.chunks = w.chunks.dropLast ++ [w.activeChunk] := by
  conv_lhs => rw [← List.dropLast_append_getLast hne]
  congr 1
  rw [Writer.activeChunk, List.getLastD_eq_getLast?,
    List.getLast?_eq_getLast w.chunks hne]
  rfl

theorem writeChunkLast_buffers (w : Writer)
    (hsize : ¬ w.activeChunk.size = 0) :
    (w.writeChunkLast).buffers = w.buffers ++ w.flushBufs := by
  simp only [Writer.writeChunkLast, if_neg hsize]
  simp [foldl_writeToBag_buffers, Writer.writeToBag, Writer.flushBufs,
    WriteChunk.toBuffer]

theorem writeChunkLast_chunks (w : Writer)
    (hsize : ¬ w.activeChunk.size = 0) :
    (w.writeChunkLast).chunks = w.chunks.dropLast ++
      [{ w.activeChunk with pos := (w.filePos : Int) }, WriteChunk.init] := by
  simp only [Writer.writeChunkLast, if_neg hsize]

theorem writeChunkLast_connections (w : Writer) :
    (w.writeChunkLast).connections = w.connections := by
  by_cases hsz : w.activeChunk.size = 0
  · simp [Writer.writeChunkLast, hsz]
  · simp [Writer.writeChunkLast, hsz, foldl_writeToBag_connections,
      Writer.writeToBag]

theorem flushedCount_append (xs ys : List WriteChunk) :
    flushedCount (xs ++ ys) = flushedCount xs + flushedCount ys := by
  simp [flushedCount, List.filter_append]

theorem flushedCount_flushed_pair (c : WriteChunk) (fp : Nat) :
    flushedCount [{ c with pos := (fp : Int) }, WriteChunk.init] = 1 := by
  have hne : ¬ ((fp : Int) = -1) := by omega
  simp [flushedCount, WriteChunk.init, hne]

theorem flushedCount_writeChunkLast (w : Writer)
    (hpos : w.activeChunk.pos = -1) (hne : w.chunks ≠ []) :
    (¬ w.activeChunk.size = 0 →
      flushedCount (w.writeChunkLast).chunks = flushedCount w.chunks + 1) ∧
    (w.activeChunk.size = 0 → w.writeChunkLast = w) := by
  constructor
  · intro hsize
    rw [writeChunkLast_chunks w hsize, flushedCount_append,
      flushedCount_flushed_pair]
    conv_rhs => rw [chunks_eq_dropLast_append w hne, flushedCount_append]
    have hlast : flushedCount [w.activeChunk] = 0 := by
      simp [flushedCount, hpos]
    rw [hlast]
  · intro hsize
    unfold Writer.writeChunkLast
    rw [if_pos hsize]

-- -------------------------------------------------------------------------
-- C3: close() flushes the active chunk iff pos = -1 and size > 0
-- -------------------------------------------------------------------------

/-- C3: at `close()`, the active chunk is flushed iff it was never flushed
(`pos == -1`) and its size is nonzero: an already-flushed or empty chunk
leaves the flush step a no-op (the empty one contributing no bytes and
nothing to `chunk_count`), while a never-flushed nonempty chunk — even one
holding only connection records — has its CHUNK record, body and index
records emitted and counts once more in `chunk_count`; in every case
`close()` then writes the tail and finalizes at the post-flush position. -/
theorem close_flush_iff (w : Writer) (h : w.opened = true)
    (hne : w.chunks ≠ []) :
    (¬ w.activeChunk.pos = -1 →
      w.closeFlushStep = w ∧
      w.close = (w.closeTail).closeFinalize w.filePos) ∧
    (w.activeChunk.pos = -1 → w.activeChunk.size = 0 →
      w.closeFlushStep = w ∧
      flushedCount w.closeFlushStep.chunks = flushedCount w.chunks ∧
      w.close = (w.closeTail).closeFinalize w.filePos) ∧
    (w.activeChunk.pos = -1 → ¬ w.activeChunk.size = 0 →
      (w.closeFlushStep).buffers = w.buffers ++ w.flushBufs ∧
      flushedCount w.closeFlushStep.chunks = flushedCount w.chunks + 1 ∧
      w.close = ((w.closeFlushStep).closeTail).closeFinalize
        (w.closeFlushStep).filePos) := by
  have hclose : w.close = ((w.closeFlushStep).closeTail).closeFinalize
      (w.closeFlushStep).filePos := by
    simp [Writer.close, h]
  refine ⟨fun hpos => ?_, fun hpos hsize => ?_, fun hpos hsize => ?_⟩
  · have hid : w.closeFlushStep = w := by
      simp [Writer.closeFlushStep, hpos]
    exact ⟨hid, by rw [hclose, hid]⟩
  · have hstep : w.closeFlushStep = w.writeChunkLast := by
      simp [Writer.closeFlushStep, hpos]
    have hid : w.closeFlushStep = w := by
      rw [hstep]
      exact (flushedCount_writeChunkLast w hpos hne).2 hsize
    refine ⟨hid, by rw [hid], ?_⟩
    rw [hclose, hid]
  · have hstep : w.closeFlushStep = w.writeChunkLast := by
      simp [Writer.closeFlushStep, hpos]
    refine ⟨?_, ?_, hclose⟩
    · rw [hstep]
      exact writeChunkLast_buffers w hsize
    · rw [hstep]
      exact (flushedCount_writeChunkLast w hpos hne).1 hsize

/-- Witness for `close_flush_iff`: the writer holding one connection record
and no message is flushed at close (one more flushed chunk), while the
freshly opened writer's empty chunk is skipped. -/
theorem close_flush_iff_witness :
    flushedCount wOneConn.closeFlushStep.chunks =
      flushedCount wOneConn.chunks + 1 ∧
    Writer.init.openBag.closeFlushStep = Writer.init.openBag := by
  constructor
  · exact ((close_flush_iff wOneConn rfl (by decide)).2.2 rfl (by decide)).2.1
  · exact ((close_flush_iff Writer.init.openBag rfl (by decide)).2.1 rfl rfl).1

-- -------------------------------------------------------------------------
-- C4: threshold-driven chunk rotation
-- -------------------------------------------------------------------------

theorem writeChunkUpdate_size (w : Writer) (connection : Connection)
    (timestamp : Nat) (data : Bytes) :
    (w.writeChunkUpdate connection timestamp data).size =
      w.activeChunk.size + (msgdataHeaderBuf connection.id timestamp).length +
        4 + data.length := by
  simp [Writer.writeChunkUpdate, WriteChunk.addIndexEntry, WriteChunk.push,
    serializeUInt32_length]

theorem writeChunkUpdate_dataParts (w : Writer) (connection : Connection)
    (timestamp : Nat) (data : Bytes) :
    (w.writeChunkUpdate connection timestamp data).dataParts =
      w.activeChunk.dataParts ++ [msgdataHeaderBuf connection.id timestamp,
        serializeUInt32 data.length, data] := by
  simp [Writer.writeChunkUpdate, WriteChunk.addIndexEntry, WriteChunk.push]

/-- C4: after the MSGDATA record (header, u32 payload length, payload) is
appended, `write` flushes the chunk and installs a fresh empty active chunk
exactly when the resulting size strictly exceeds `chunkThreshold` (default
1048576); below or at the threshold, no bytes reach the sink and the chunk
count is unchanged.  A single over-threshold message stays in one chunk: the
flushed chunk is the updated chunk itself, holding the whole record. -/
theorem write_chunk_rotation (w : Writer) (connection : Connection)
    (timestamp : Nat) (data : Bytes)
    (hopen : w.opened = true)
    (hmem : (w.connections.any (fun x => decide (x = connection))) = true)
    (hne : w.chunks ≠ []) :
    Writer.init.chunkThreshold = 1048576 ∧
    (w.writeChunkUpdate connection timestamp data).size =
      w.activeChunk.size + (msgdataHeaderBuf connection.id timestamp).length +
        4 + data.length ∧
    (w.writeChunkUpdate connection timestamp data).dataParts =
      w.activeChunk.dataParts ++ [msgdataHeaderBuf connection.id timestamp,
        serializeUInt32 data.length, data] ∧
    (¬ (w.writeChunkUpdate connection timestamp data).size > w.chunkThreshold →
      w.write connection timestamp data =
        .ok (w.setActiveChunk (w.writeChunkUpdate connection timestamp data)) ∧
      (w.setActiveChunk (w.writeChunkUpdate connection timestamp
        data)).buffers = w.buffers ∧
      (w.setActiveChunk (w.writeChunkUpdate connection timestamp
        data)).chunks.length = w.chunks.length) ∧
    ((w.writeChunkUpdate connection timestamp data).size > w.chunkThreshold →
      w.write connection timestamp data = .ok
        ((w.setActiveChunk (w.writeChunkUpdate connection timestamp
          data)).writeChunkLast) ∧
      ((w.setActiveChunk (w.writeChunkUpdate connection timestamp
          data)).writeChunkLast).chunks =
        w.chunks.dropLast ++
          [{ w.writeChunkUpdate connection timestamp data with
              pos := (w.filePos : Int) }, WriteChunk.init] ∧
      ((w.setActiveChunk (w.writeChunkUpdate connection timestamp
          data)).writeChunkLast).activeChunk = WriteChunk.init) := by
  refine ⟨by decide, writeChunkUpdate_size w connection timestamp data,
    writeChunkUpdate_dataParts w connection timestamp data, ?_, ?_⟩
  · intro hle
    refine ⟨?_, rfl, ?_⟩
    · simp only [Writer.write, hopen, hmem]
      simp only [Bool.not_true, Bool.false_eq_true, if_false]
      rw [if_neg ?_]
      simpa [Writer.setActiveChunk] using hle
    · simp only [Writer.setActiveChunk, List.length_append,
        List.length_dropLast, List.length_singleton]
      have : 0 < w.chunks.length := List.length_pos.mpr hne
      omega
  · intro hgt
    have hsz : ¬ ((w.setActiveChunk (w.writeChunkUpdate connection timestamp
        data)).activeChunk.size = 0) := by
      rw [activeChunk_setActiveChunk]
      omega
    refine ⟨?_, ?_, ?_⟩
    · simp only [Writer.write, hopen, hmem]
      simp only [Bool.not_true, Bool.false_eq_true, if_false]
      rw [if_pos ?_]
      simpa [Writer.setActiveChunk] using hgt
    · rw [writeChunkLast_chunks _ hsz, activeChunk_setActiveChunk]
      simp [Writer.setActiveChunk, List.dropLast_concat]
    · rw [Writer.activeChunk, writeChunkLast_chunks _ hsz]
      exact getLastD_append_pair _ _ _ _

/-- Witness for `write_chunk_rotation`: a 5-byte-threshold writer rotates on
a small message (fresh empty active chunk), while the default-threshold
writer keeps collecting without writing to the sink. -/
theorem write_chunk_rotation_witness :
    ((wSmall.setActiveChunk (wSmall.writeChunkUpdate connFoo 1
        (strBytes "abcdef"))).writeChunkLast).activeChunk = WriteChunk.init ∧
    (wOneConn.setActiveChunk (wOneConn.writeChunkUpdate connFoo 42
        (strBytes "DEADBEEF"))).buffers = wOneConn.buffers := by
  constructor
  · exact ((write_chunk_rotation wSmall connFoo 1 (strBytes "abcdef") rfl
      (by decide) (by decide)).2.2.2.2 (by decide)).2.2
  · exact ((write_chunk_rotation wOneConn connFoo 42 (strBytes "DEADBEEF")
      rfl (by decide) (by decide)).2.2.2.1 (by decide)).2.1

-- -------------------------------------------------------------------------
-- C6: per-message index offsets and IDXDATA records
-- -------------------------------------------------------------------------

theorem find?_map_entryUpdate (l : List (Nat × List (Nat × Nat))) (cid : Nat)
    (e : Nat × Nat) :
    (l.map (fun p => if p.1 = cid then (p.1, p.2 ++ [e]) else p)).find?
        (fun p => decide (p.1 = cid)) =
      (l.find? (fun p => decide (p.1 = cid))).map
        (fun p => (p.1, p.2 ++ [e])) := by
  induction l with
  | nil => rfl
  | cons a t ih =>
    by_cases hp : a.1 = cid
    · simp only [List.map_cons, if_pos hp]
      rw [List.find?_cons_of_pos _ (by simp [hp]),
        List.find?_cons_of_pos _ (by simp [hp])]
      simp
    · simp only [List.map_cons, if_neg hp]
      rw [List.find?_cons_of_neg _ (by simp [hp]),
        List.find?_cons_of_neg _ (by simp [hp]), ih]

theorem find?_append_of_none {α : Type} (l1 l2 : List α) (p : α → Bool)
    (h : l1.find? p = none) : (l1 ++ l2).find? p = l2.find? p := by
  induction l1 with
  | nil => rfl
  | cons a t ih =>
    cases hpa : p a with
    | true =>
      rw [List.find?_cons_of_pos _ hpa] at h
      exact absurd h (by simp)
    | false =>
      rw [List.find?_cons_of_neg _ (by simp [hpa])] at h
      rw [List.cons_append, List.find?_cons_of_neg _ (by simp [hpa])]
      exact ih h

/-- The index entry recorded by `addIndexEntry` is appended to the
connection's entry list, carrying the pre-append offset `chunk.offset`. -/
theorem lookup_addIndexEntry (c : WriteChunk) (cid ts : Nat) :
    lookupEntries (c.addIndexEntry cid ts).connections cid =
      some ((lookupEntries c.connections cid).getD [] ++ [(ts, c.offset)]) := by
  unfold WriteChunk.addIndexEntry lookupEntries
  by_cases hany : c.connections.any (fun p => decide (p.1 = cid)) = true
  · rw [if_pos hany]
    simp only []
    rw [find?_map_entryUpdate]
    obtain ⟨x, hx, hpx⟩ := List.any_eq_true.mp hany
    cases hfind : c.connections.find? (fun p => decide (p.1 = cid)) with
    | none =>
      rw [List.find?_eq_none] at hfind
      exact absurd hpx (by simpa using hfind x hx)
    | some p => simp
  · rw [if_neg hany]
    simp only []
    rw [find?_map_entryUpdate]
    have hnone : c.connections.find? (fun p => decide (p.1 = cid)) = none := by
      rw [List.find?_eq_none]
      intro x hx hdec
      exact hany (List.any_eq_true.mpr ⟨x, hx, hdec⟩)
    rw [find?_append_of_none _ _ _ hnone, hnone]
    simp

theorem writeChunkUpdate_connections (w : Writer) (connection : Connection)
    (timestamp : Nat) (data : Bytes) :
    (w.writeChunkUpdate connection timestamp data).connections =
      (w.activeChunk.addIndexEntry connection.id timestamp).connections := by
  simp [Writer.writeChunkUpdate, WriteChunk.push]

theorem idxEntry_length (e : Nat × Nat) : (idxEntryBuf e.1 e.2).length = 12 := by
  simp [idxEntryBuf, serializeTime, serializeUInt32_length]

/-- C6: for every message written, the offset recorded in the chunk's
per-connection index equals the chunk body size before the message's bytes
are appended — the byte position of the MSGDATA record's header inside the
chunk body; at flush, the emitted IDXDATA record for each connection carries
that conn id, `count` = number of entries, a body of `12 × count` bytes,
each entry being the 8-byte time followed by `offset:u32`. -/
theorem write_index_offsets (w : Writer) (connection : Connection)
    (timestamp : Nat) (data : Bytes)
    (hsz : w.activeChunk.size = w.activeChunk.dataParts.flatten.length)
    (hflush : ¬ w.activeChunk.size = 0) :
    lookupEntries (w.writeChunkUpdate connection timestamp data).connections
        connection.id =
      some ((lookupEntries w.activeChunk.connections connection.id).getD [] ++
        [(timestamp, w.activeChunk.size)]) ∧
    (w.writeChunkUpdate connection timestamp data).dataParts.flatten.drop
        w.activeChunk.size =
      msgdataHeaderBuf connection.id timestamp ++
        (serializeUInt32 data.length ++ data) ∧
    (w.writeChunkLast).buffers = w.buffers ++ w.flushBufs ∧
    (∀ items : List (Nat × Nat),
      ((items.map (fun e => idxEntryBuf e.1 e.2)).flatten).length =
        12 * items.length) ∧
    idxBufs w.activeChunk.connections =
      (w.activeChunk.connections.map (fun p =>
        idxHeaderBuf p.1 p.2.length ::
          serializeUInt32 (p.2.length * 12) ::
          p.2.map (fun e => idxEntryBuf e.1 e.2))).flatten := by
  refine ⟨?_, ?_, writeChunkLast_buffers w hflush, ?_, rfl⟩
  · rw [writeChunkUpdate_connections]
    exact lookup_addIndexEntry w.activeChunk connection.id timestamp
  · rw [writeChunkUpdate_dataParts]
    rw [List.flatten_append]
    rw [hsz, List.drop_left]
    simp
  · intro items
    induction items with
    | nil => rfl
    | cons e t ih =>
      simp only [List.map_cons, List.flatten_cons, List.length_append,
        idxEntry_length, ih, List.length_cons]
      ring

set_option maxRecDepth 4000 in
/-- Witness for `write_index_offsets`: the first message on `connFoo` is
recorded at the offset equal to the two connection records already in the
chunk body. -/
theorem write_index_offsets_witness :
    lookupEntries (wOneConn.writeChunkUpdate connFoo 42
        (strBytes "DEADBEEF")).connections connFoo.id =
      some ((lookupEntries wOneConn.activeChunk.connections
          connFoo.id).getD [] ++ [(42, wOneConn.activeChunk.size)]) :=
  (write_index_offsets wOneConn connFoo 42 (strBytes "DEADBEEF")
    (by decide) (by decide)).1

-- -------------------------------------------------------------------------
-- Fold lemmas for running minima and maxima
-- -------------------------------------------------------------------------

theorem foldl_min_out (l : List Nat) (a t : Nat) :
    l.foldl min (min a t) = min (l.foldl min a) t := by
  induction l generalizing a with
  | nil => rfl
  | cons x xs ih =>
    simp only [List.foldl_cons]
    rw [min_right_comm a t x, ih]

theorem foldl_max_out (l : List Nat) (a t : Nat) :
    l.foldl max (max a t) = max (l.foldl max a) t := by
  induction l generalizing a with
  | nil => rfl
  | cons x xs ih =>
    simp only [List.foldl_cons]
    rw [show max (max a t) x = max (max a x) t by omega, ih]

theorem foldl_min_le_init (l : List Nat) (a : Nat) : l.foldl min a ≤ a := by
  induction l generalizing a with
  | nil => exact Nat.le_refl a
  | cons x xs ih =>
    exact (ih (min a x)).trans (Nat.min_le_left a x)

theorem foldl_min_le_mem (l : List Nat) (a : Nat) :
    ∀ t ∈ l, l.foldl min a ≤ t := by
  induction l generalizing a with
  | nil => intro t ht; simp at ht
  | cons x xs ih =>
    intro t ht
    rcases List.mem_cons.mp ht with h | h
    · subst h
      exact (foldl_min_le_init xs (min a t)).trans (Nat.min_le_right a t)
    · exact ih (min a x) t h

theorem foldl_min_eq_or_mem (l : List Nat) (a : Nat) (h : l ≠ []) :
    l.foldl min a = a ∨ l.foldl min a ∈ l := by
  induction l generalizing a with
  | nil => exact absurd rfl h
  | cons x xs ih =>
    cases xs with
    | nil =>
      rcases min_choice a x with hc | hc <;> simp [hc]
    | cons y ys =>
      rcases ih (min a x) (by simp) with hc | hc
      · rw [List.foldl_cons, hc]
        rcases min_choice a x with h2 | h2 <;> simp [h2]
      · right
        rw [List.foldl_cons]
        exact List.mem_cons_of_mem x hc

theorem foldl_max_ge_init (l : List Nat) (a : Nat) : a ≤ l.foldl max a := by
  induction l generalizing a with
  | nil => exact Nat.le_refl a
  | cons x xs ih =>
    exact (Nat.le_max_left a x).trans (ih (max a x))

theorem foldl_max_ge_mem (l : List Nat) (a : Nat) :
    ∀ t ∈ l, t ≤ l.foldl max a := by
  induction l generalizing a with
  | nil => intro t ht; simp at ht
  | cons x xs ih =>
    intro t ht
    rcases List.mem_cons.mp ht with h | h
    · subst h
      exact (Nat.le_max_right a t).trans (foldl_max_ge_init xs (max a t))
    · exact ih (max a x) t h

theorem foldl_max_eq_or_mem (l : List Nat) (a : Nat) (h : l ≠ []) :
    l.foldl max a = a ∨ l.foldl max a ∈ l := by
  induction l generalizing a with
  | nil => exact absurd rfl h
  | cons x xs ih =>
    cases xs with
    | nil =>
      rcases max_choice a x with hc | hc <;> simp [hc]
    | cons y ys =>
      rcases ih (max a x) (by simp) with hc | hc
      · rw [List.foldl_cons, hc]
        rcases max_choice a x with h2 | h2 <;> simp [h2]
      · right
        rw [List.foldl_cons]
        exact List.mem_cons_of_mem x hc

-- -------------------------------------------------------------------------
-- Chunk-times bookkeeping under addIndexEntry
-- -------------------------------------------------------------------------

theorem chunkTimes_cons (a : Nat × List (Nat × Nat))
    (t : List (Nat × List (Nat × Nat))) :
    chunkTimes (a :: t) = a.2.map Prod.fst ++ chunkTimes t := by
  simp [chunkTimes]

theorem map_entryUpdate_of_absent (l : List (Nat × List (Nat × Nat)))
    (cid : Nat) (e : Nat × Nat) (h : ∀ p ∈ l, p.1 ≠ cid) :
    l.map (fun p => if p.1 = cid then (p.1, p.2 ++ [e]) else p) = l := by
  induction l with
  | nil => rfl
  | cons a t ih =>
    rw [List.map_cons, if_neg (h a (List.mem_cons_self a t)),
      ih (fun p hp => h p (List.mem_cons_of_mem a hp))]

theorem map_entryUpdate_keys (l : List (Nat × List (Nat × Nat)))
    (cid : Nat) (e : Nat × Nat) :
    (l.map (fun p => if p.1 = cid then (p.1, p.2 ++ [e]) else p)).map
      Prod.fst = l.map Prod.fst := by
  induction l with
  | nil => rfl
  | cons a t ih =>
    by_cases hp : a.1 = cid <;> simp [hp, ih]

theorem chunkTimes_update_present (l : List (Nat × List (Nat × Nat)))
    (cid : Nat) (e : Nat × Nat)
    (hnodup : (l.map Prod.fst).Nodup)
    (hany : l.any (fun p => decide (p.1 = cid)) = true) :
    ∃ A B, chunkTimes l = A ++ B ∧
      chunkTimes (l.map (fun p => if p.1 = cid then (p.1, p.2 ++ [e]) else p))
        = A ++ (e.1 :: B) := by
  induction l with
  | nil => simp at hany
  | cons a t ih =>
    rw [List.map_cons] at hnodup
    have hcons := List.nodup_cons.mp hnodup
    have hnodupt : (t.map Prod.fst).Nodup := hcons.2
    by_cases hp : a.1 = cid
    · have htail : ∀ p ∈ t, p.1 ≠ cid := by
        intro p hpmem hpe
        exact hcons.1 (hp ▸ hpe ▸ List.mem_map_of_mem Prod.fst hpmem)
      refine ⟨a.2.map Prod.fst, chunkTimes t, chunkTimes_cons a t, ?_⟩
      rw [List.map_cons, if_pos hp, map_entryUpdate_of_absent t cid e htail,
        chunkTimes_cons]
      simp
    · have hanyt : t.any (fun p => decide (p.1 = cid)) = true := by
        rcases List.any_eq_true.mp hany with ⟨x, hx, hdec⟩
        rcases List.mem_cons.mp hx with hhead | htail2
        · exact absurd (by simpa using hdec) (hhead ▸ hp)
        · exact List.any_eq_true.mpr ⟨x, htail2, hdec⟩
      obtain ⟨A, B, h1, h2⟩ := ih hnodupt hanyt
      refine ⟨a.2.map Prod.fst ++ A, B, ?_, ?_⟩
      · rw [chunkTimes_cons, h1, List.append_assoc]
      · rw [List.map_cons, if_neg hp, chunkTimes_cons, h2, List.append_assoc]

theorem chunkTimes_append (l1 l2 : List (Nat × List (Nat × Nat))) :
    chunkTimes (l1 ++ l2) = chunkTimes l1 ++ chunkTimes l2 := by
  simp [chunkTimes]

theorem chunkTimes_update_absent (l : List (Nat × List (Nat × Nat)))
    (cid : Nat) (e : Nat × Nat)
    (hany : ¬ l.any (fun p => decide (p.1 = cid)) = true) :
    chunkTimes ((l ++ [(cid, [])]).map
        (fun p : Nat × List (Nat × Nat) =>
          if p.1 = cid then (p.1, p.2 ++ [e]) else p)) =
      chunkTimes l ++ [e.1] := by
  have habs : ∀ p ∈ l, p.1 ≠ cid := by
    intro p hp hpe
    exact hany (List.any_eq_true.mpr ⟨p, hp, by simp [hpe]⟩)
  rw [List.map_append, map_entryUpdate_of_absent l cid e habs,
    chunkTimes_append]
  simp [chunkTimes]

-- -------------------------------------------------------------------------
-- timesOK preservation and CHUNK_INFO emission
-- -------------------------------------------------------------------------

theorem chunkTimes_addIndexEntry (c : WriteChunk) (cid ts : Nat)
    (hnodup : (c.connections.map Prod.fst).Nodup) :
    ∃ A B, chunkTimes c.connections = A ++ B ∧
      chunkTimes (c.addIndexEntry cid ts).connections = A ++ (ts :: B) := by
  unfold WriteChunk.addIndexEntry
  by_cases hany : c.connections.any (fun p => decide (p.1 = cid)) = true
  · simp only [hany, if_true]
    exact chunkTimes_update_present c.connections cid (ts, c.offset) hnodup hany
  · simp only [Bool.not_eq_true] at hany
    simp only [hany, Bool.false_eq_true, if_false]
    refine ⟨chunkTimes c.connections, [], by simp, ?_⟩
    rw [chunkTimes_update_absent c.connections cid (ts, c.offset)
      (by simp [hany])]

theorem addIndexEntry_keys_nodup (c : WriteChunk) (cid ts : Nat)
    (hnodup : (c.connections.map Prod.fst).Nodup) :
    ((c.addIndexEntry cid ts).connections.map Prod.fst).Nodup := by
  unfold WriteChunk.addIndexEntry
  by_cases hany : c.connections.any (fun p => decide (p.1 = cid)) = true
  · simp only [hany, if_true, map_entryUpdate_keys]
    exact hnodup
  · simp only [Bool.not_eq_true] at hany
    simp only [hany, Bool.false_eq_true, if_false, map_entryUpdate_keys,
      List.map_append]
    have hnotmem : cid ∉ c.connections.map Prod.fst := by
      intro hmem
      rcases List.mem_map.mp hmem with ⟨p, hp, hfst⟩
      have : c.connections.any (fun p => decide (p.1 = cid)) = true :=
        List.any_eq_true.mpr ⟨p, hp, by simp [hfst]⟩
      simp [hany] at this
    refine List.Nodup.append hnodup (List.nodup_singleton cid) ?_
    intro a ha hb
    rw [List.mem_singleton.mp hb] at ha
    exact hnotmem ha

theorem addIndexEntry_entries_nonempty (c : WriteChunk) (cid ts : Nat)
    (h : ∀ p ∈ c.connections, p.2 ≠ []) :
    ∀ p ∈ (c.addIndexEntry cid ts).connections, p.2 ≠ [] := by
  intro p hp
  unfold WriteChunk.addIndexEntry at hp
  simp only at hp
  rcases List.mem_map.mp hp with ⟨q, hq, hupd⟩
  by_cases hqc : q.1 = cid
  · rw [if_pos hqc] at hupd
    rw [← hupd]
    simp
  · rw [if_neg hqc] at hupd
    subst hupd
    by_cases hany : c.connections.any (fun p => decide (p.1 = cid)) = true
    · rw [if_pos hany] at hq
      exact h q hq
    · rw [if_neg hany] at hq
      rcases List.mem_append.mp hq with hql | hqr
      · exact h q hql
      · exact absurd (congrArg Prod.fst (List.mem_singleton.mp hqr)) hqc

theorem addIndexEntry_min_fold (c : WriteChunk) (cid ts : Nat)
    (hnodup : (c.connections.map Prod.fst).Nodup)
    (hstart : c.start = (chunkTimes c.connections).foldl min maxSafeInteger) :
    min c.start ts =
      (chunkTimes (c.addIndexEntry cid ts).connections).foldl min
        maxSafeInteger := by
  obtain ⟨A, B, h1, h2⟩ := chunkTimes_addIndexEntry c cid ts hnodup
  rw [h2, hstart, h1]
  rw [List.foldl_append, List.foldl_append, List.foldl_cons, foldl_min_out]

theorem addIndexEntry_max_fold (c : WriteChunk) (cid ts : Nat)
    (hnodup : (c.connections.map Prod.fst).Nodup)
    (hend : c.«end» = (chunkTimes c.connections).foldl max 0) :
    max c.«end» ts =
      (chunkTimes (c.addIndexEntry cid ts).connections).foldl max 0 := by
  obtain ⟨A, B, h1, h2⟩ := chunkTimes_addIndexEntry c cid ts hnodup
  rw [h2, hend, h1]
  rw [List.foldl_append, List.foldl_append, List.foldl_cons, foldl_max_out]

theorem writeChunkUpdate_start (w : Writer) (connection : Connection)
    (timestamp : Nat) (data : Bytes) :
    (w.writeChunkUpdate connection timestamp data).start =
      min w.activeChunk.start timestamp := by
  simp [Writer.writeChunkUpdate, WriteChunk.push, WriteChunk.addIndexEntry]

theorem writeChunkUpdate_end (w : Writer) (connection : Connection)
    (timestamp : Nat) (data : Bytes) :
    (w.writeChunkUpdate connection timestamp data).«end» =
      max w.activeChunk.«end» timestamp := by
  simp [Writer.writeChunkUpdate, WriteChunk.push, WriteChunk.addIndexEntry]

theorem timesOK_init : timesOK WriteChunk.init := by
  refine ⟨rfl, rfl, ?_, ?_⟩ <;> simp [WriteChunk.init]

theorem timesOK_writeChunkUpdate (w : Writer) (connection : Connection)
    (timestamp : Nat) (data : Bytes) (h : timesOK w.activeChunk) :
    timesOK (w.writeChunkUpdate connection timestamp data) := by
  obtain ⟨hstart, hend, hnodup, hnonempty⟩ := h
  have hconn := writeChunkUpdate_connections w connection timestamp data
  refine ⟨?_, ?_, ?_, ?_⟩
  · rw [writeChunkUpdate_start, hconn]
    exact addIndexEntry_min_fold w.activeChunk connection.id timestamp
      hnodup hstart
  · rw [writeChunkUpdate_end, hconn]
    exact addIndexEntry_max_fold w.activeChunk connection.id timestamp
      hnodup hend
  · rw [hconn]
    exact addIndexEntry_keys_nodup w.activeChunk connection.id timestamp hnodup
  · rw [hconn]
    exact addIndexEntry_entries_nonempty w.activeChunk connection.id timestamp
      hnonempty

set_option maxRecDepth 2000 in
theorem chunkInfoHeaderBuf_fields (c : WriteChunk) :
    chunkInfoHeaderBuf c = Header.serialize
      (⟨[("ver", serializeUInt32 1),
         ("chunk_pos", serializeUInt64 c.pos.toNat),
         ("start_time",
           serializeTime (if c.start = maxSafeInteger then 0 else c.start)),
         ("end_time", serializeTime c.«end»),
         ("count", serializeUInt32 c.connections.length)]⟩ : Header)
      (some RecordType.CHUNK_INFO) := rfl

theorem connInfo_flatten_length (l : List (Nat × List (Nat × Nat))) :
    ((l.map (fun p => serializeUInt32 p.1 ++
      serializeUInt32 p.2.length)).flatten).length = 8 * l.length := by
  induction l with
  | nil => rfl
  | cons a t ih =>
    simp only [List.map_cons, List.flatten_cons, List.length_append,
      serializeUInt32_length, ih, List.length_cons]
    ring

theorem connInfoBuf_length (c : WriteChunk) :
    (connInfoBuf c).length = 8 * c.connections.length :=
  connInfo_flatten_length c.connections

theorem foldl_connRec_spec (cs : List Connection) (w : Writer) :
    (cs.foldl connRecordStep w).buffers = w.buffers ++ connRecBufs cs ∧
    (cs.foldl connRecordStep w).chunks = w.chunks ∧
    (cs.foldl connRecordStep w).connections = w.connections := by
  induction cs generalizing w with
  | nil => simp [connRecBufs]
  | cons a t ih =>
    simp only [List.foldl_cons]
    refine ⟨?_, ?_, ?_⟩
    · rw [(ih (connRecordStep w a)).1]
      simp [connRecordStep, Writer.writeToBag, connRecBufs]
    · rw [(ih (connRecordStep w a)).2.1]
      simp [connRecordStep, Writer.writeToBag]
    · rw [(ih (connRecordStep w a)).2.2]
      simp [connRecordStep, Writer.writeToBag]

theorem foldl_chunkInfo_spec (ks : List WriteChunk) (w : Writer) :
    (ks.foldl chunkInfoStep w).buffers = w.buffers ++ chunkInfoBufsList ks ∧
    (ks.foldl chunkInfoStep w).chunks = w.chunks ∧
    (ks.foldl chunkInfoStep w).connections = w.connections := by
  induction ks generalizing w with
  | nil => simp [chunkInfoBufsList]
  | cons a t ih =>
    simp only [List.foldl_cons]
    by_cases hp : a.pos = -1
    · have hstep : chunkInfoStep w a = w := by simp [chunkInfoStep, hp]
      rw [hstep]
      refine ⟨?_, (ih w).2.1, (ih w).2.2⟩
      rw [(ih w).1]
      simp [chunkInfoBufsList, hp]
    · refine ⟨?_, ?_, ?_⟩
      · rw [(ih (chunkInfoStep w a)).1]
        simp [chunkInfoStep, hp, Writer.writeToBag, chunkInfoBufsList]
      · rw [(ih (chunkInfoStep w a)).2.1]
        simp [chunkInfoStep, hp, Writer.writeToBag]
      · rw [(ih (chunkInfoStep w a)).2.2]
        simp [chunkInfoStep, hp, Writer.writeToBag]

theorem closeTail_buffers (w : Writer) :
    (w.closeTail).buffers =
      w.buffers ++ connRecBufs w.connections ++
        chunkInfoBufsList w.chunks := by
  unfold Writer.closeTail
  rw [(foldl_chunkInfo_spec _ _).1, (foldl_connRec_spec _ _).1,
    (foldl_connRec_spec _ _).2.1]

-- -------------------------------------------------------------------------
-- C7: CHUNK_INFO records carry chunk_pos, min/max times, and counts
-- -------------------------------------------------------------------------

/-- The CHUNK_INFO emission characterized on the domain where the sentinel
does not collide: provided every recorded timestamp is strictly below the
`Number.MAX_SAFE_INTEGER` sentinel, the record written at close carries
`ver = 1`, `chunk_pos` equal to the file offset stamped at flush time,
`start_time` equal to the minimum message timestamp (0 if none),
`end_time` equal to the maximum (0 if none), `count` equal to the number of
distinct connections with messages, and a body of `8 × count` bytes.  The
`start`/`end` fields track the running min/max per write, and the close
tail emits exactly these records.  (Outside this domain the code emits
`start_time = 0` despite messages being present — see the C7 theorem.) -/
theorem chunk_info_correct (w : Writer) (connection : Connection)
    (timestamp : Nat) (data : Bytes) (c : WriteChunk)
    (hactive : timesOK w.activeChunk)
    (hinv : timesOK c)
    (hbound : ∀ t ∈ chunkTimes c.connections, t < maxSafeInteger)
    (hsize : ¬ w.activeChunk.size = 0) :
    timesOK WriteChunk.init ∧
    timesOK (w.writeChunkUpdate connection timestamp data) ∧
    (w.writeChunkUpdate connection timestamp data).start =
      min w.activeChunk.start timestamp ∧
    (w.writeChunkUpdate connection timestamp data).«end» =
      max w.activeChunk.«end» timestamp ∧
    (w.writeChunkLast).chunks = w.chunks.dropLast ++
      [{ w.activeChunk with pos := (w.filePos : Int) }, WriteChunk.init] ∧
    (w.closeTail).buffers = w.buffers ++ connRecBufs w.connections ++
      chunkInfoBufsList w.chunks ∧
    chunkInfoHeaderBuf c = Header.serialize
      (⟨[("ver", serializeUInt32 1),
         ("chunk_pos", serializeUInt64 c.pos.toNat),
         ("start_time", serializeTime (if chunkTimes c.connections = [] then 0
           else (chunkTimes c.connections).foldl min maxSafeInteger)),
         ("end_time", serializeTime ((chunkTimes c.connections).foldl max 0)),
         ("count", serializeUInt32 c.connections.length)]⟩ : Header)
      (some RecordType.CHUNK_INFO) ∧
    (chunkTimes c.connections ≠ [] →
      (chunkTimes c.connections).foldl min maxSafeInteger ∈
        chunkTimes c.connections ∧
      (∀ t ∈ chunkTimes c.connections,
        (chunkTimes c.connections).foldl min maxSafeInteger ≤ t) ∧
      (chunkTimes c.connections).foldl max 0 ∈ chunkTimes c.connections ∧
      (∀ t ∈ chunkTimes c.connections,
        t ≤ (chunkTimes c.connections).foldl max 0)) ∧
    (chunkTimes c.connections = [] →
      (if c.start = maxSafeInteger then 0 else c.start) = 0 ∧ c.«end» = 0) ∧
    (connInfoBuf c).length = 8 * c.connections.length := by
  obtain ⟨hstart, hend, hnodup, hnonempty⟩ := hinv
  refine ⟨timesOK_init,
    timesOK_writeChunkUpdate w connection timestamp data hactive,
    writeChunkUpdate_start w connection timestamp data,
    writeChunkUpdate_end w connection timestamp data,
    writeChunkLast_chunks w hsize,
    closeTail_buffers w, ?_, ?_, ?_, connInfoBuf_length c⟩
  · rw [chunkInfoHeaderBuf_fields]
    have hstarteq : (if c.start = maxSafeInteger then 0 else c.start) =
        (if chunkTimes c.connections = [] then 0
         else (chunkTimes c.connections).foldl min maxSafeInteger) := by
      by_cases htimes : chunkTimes c.connections = []
      · rw [if_pos htimes, if_pos ?_]
        rw [hstart, htimes]
        rfl
      · obtain ⟨t0, ht0⟩ := List.exists_mem_of_ne_nil _ htimes
        have hlt : (chunkTimes c.connections).foldl min maxSafeInteger <
            maxSafeInteger :=
          Nat.lt_of_le_of_lt (foldl_min_le_mem _ _ t0 ht0) (hbound t0 ht0)
        rw [if_neg htimes, if_neg ?_, hstart]
        rw [hstart]
        exact Nat.ne_of_lt hlt
    rw [hstarteq, hend]
  · intro htimes
    obtain ⟨t0, ht0⟩ := List.exists_mem_of_ne_nil _ htimes
    have hlt : (chunkTimes c.connections).foldl min maxSafeInteger <
        maxSafeInteger :=
      Nat.lt_of_le_of_lt (foldl_min_le_mem _ _ t0 ht0) (hbound t0 ht0)
    refine ⟨?_, foldl_min_le_mem _ _, ?_, foldl_max_ge_mem _ _⟩
    · rcases foldl_min_eq_or_mem (chunkTimes c.connections) maxSafeInteger
        htimes with heq | hmem
      · exact absurd heq (Nat.ne_of_lt hlt)
      · exact hmem
    · rcases foldl_max_eq_or_mem (chunkTimes c.connections) 0 htimes
        with heq | hmem
      · have ht00 : t0 = 0 :=
          Nat.le_zero.mp (heq ▸ foldl_max_ge_mem _ _ t0 ht0)
        rw [heq, ← ht00]
        exact ht0
      · exact hmem
  · intro htimes
    constructor
    · rw [if_pos ?_]
      rw [hstart, htimes]
      rfl
    · rw [hend, htimes]
      rfl

set_option maxRecDepth 4000 in
/-- `chunk_info_correct` applied at the one-message writer. -/
theorem chunk_info_correct_witness :
    timesOK (wMsg.writeChunkUpdate connFoo 43 (strBytes "XY")) ∧
    (connInfoBuf wMsg.activeChunk).length =
      8 * wMsg.activeChunk.connections.length := by
  refine ⟨(chunk_info_correct wMsg connFoo 43 (strBytes "XY")
    wMsg.activeChunk (by decide) (by decide) (by decide) (by decide)).2.1,
    (chunk_info_correct wMsg connFoo 43 (strBytes "XY")
    wMsg.activeChunk (by decide) (by decide) (by decide)
    (by decide)).2.2.2.2.2.2.2.2.2⟩

set_option maxRecDepth 4000 in
/-- C7: the claim is right and the code is the slip.  `chunk.start` is
initialized to `Number.MAX_SAFE_INTEGER` (the source comment calls it a
"2^64 large substitute" for the reference implementation's sentinel), so a
message timestamped `2^53 - 1` — and likewise every realistic
epoch-nanosecond timestamp, which exceeds `2^53` — leaves `start` at the
sentinel, and `close()` emits `start_time = 0` although the chunk holds a
message whose minimum timestamp is nonzero.  This contradicts the claim
(and the spec, which allows a zero `start_time` only for chunks with no
messages).  Evaluated here: writing one message at `2^53 - 1` through the
5-byte-threshold writer flushes the chunk `cBad`; its per-connection index
holds exactly one entry with timestamp `maxSafeInteger ≠ 0`, yet the
CHUNK_INFO record that `close()` writes for it carries
`start_time = serializeTime 0`. -/
theorem chunk_info_start_time_zero_bug :
    wBadFlushed.chunks = [cBad, WriteChunk.init] ∧
    chunkTimes cBad.connections = [maxSafeInteger] ∧
    (chunkTimes cBad.connections).foldl min maxSafeInteger =
      maxSafeInteger ∧
    maxSafeInteger ≠ 0 ∧
    cBad.start = maxSafeInteger ∧
    chunkInfoHeaderBuf cBad = Header.serialize
      (⟨[("ver", serializeUInt32 1),
         ("chunk_pos", serializeUInt64 0),
         ("start_time", serializeTime 0),
         ("end_time", serializeTime maxSafeInteger),
         ("count", serializeUInt32 1)]⟩ : Header)
      (some RecordType.CHUNK_INFO) ∧
    chunkInfoBufsList wBadFlushed.chunks =
      [chunkInfoHeaderBuf cBad, serializeUInt32 (connInfoBuf cBad).length,
       connInfoBuf cBad] ∧
    (wBadFlushed.closeTail).buffers = wBadFlushed.buffers ++
      connRecBufs wBadFlushed.connections ++
      [chunkInfoHeaderBuf cBad, serializeUInt32 (connInfoBuf cBad).length,
       connInfoBuf cBad] := by
  have hlist : chunkInfoBufsList wBadFlushed.chunks =
      [chunkInfoHeaderBuf cBad, serializeUInt32 (connInfoBuf cBad).length,
       connInfoBuf cBad] := by decide
  refine ⟨by decide, by decide, by decide, by decide, by decide, by decide,
    hlist, ?_⟩
  rw [closeTail_buffers, hlist]

end Rosbags

